import Mathlib

/-!
# A verification model of the orca-rs grid evaluator

This file is a shallow embedding, in Lean 4, of the core of the `orca-rs`
live-coding environment: the base-36 codec, the `Note` record and the
note de-duplication pipeline (`src/note_events.rs`), the grid substrate
(`Context` in `src/context.rs`), the operator library and the per-tick
evaluator (`src/operators.rs`).

Conventions of the embedding:

* Rust `char` is Lean `Char`; the grid is `List (List Char)`.
* Rust `u8`/`u64`/`usize` become `Nat`; where u8 arithmetic can wrap, the
  wrap is written explicitly as `% 256` (noted at each site).
* Rust `i32` coordinates become `Int` (grid coordinates stay far below the
  i32 range, so two's-complement wrap is never reachable in the modelled
  states).
* `HashSet` / `HashMap` fields become lists with explicit insert/lookup
  functions; the claims below only inspect them through lookups, so the
  unspecified iteration order of the Rust hash containers is never relied
  upon.
* File I/O is abstracted by a field `fs : String → Grid` of the context
  (every open succeeds and returns that grid), and the random generator by
  an oracle `rng : Nat → Nat` consulted at an evaluation counter; both are
  universally quantified in the theorems that touch them.
* The context additionally carries a specification-only write log `log`
  recording every grid cell written during a tick; no operation reads it.
-/

/-! ## Base-36 codec (src/operators.rs, `char_to_base_36` / `base_36_to_char`) -/

/-- `char_to_base_36` from src/operators.rs.  Byte values: `b'0' = 48`,
`b'a' = 97`, `b'A' = 65`. -/
def char_to_base_36 (c : Char) : Nat × Bool :=
  if '0' ≤ c ∧ c ≤ '9' then (c.toNat - 48, false)
  else if 'a' ≤ c ∧ c ≤ 'z' then (c.toNat - 97 + 10, false)
  else if 'A' ≤ c ∧ c ≤ 'Z' then (c.toNat - 65 + 10, true)
  else (0, false)

/-- `base_36_to_char` from src/operators.rs.  After `c % 36` the value is
at most 35, so the source's `unreachable!` arm cannot be hit and is absent
here. -/
def base_36_to_char (c : Nat) (upper : Bool) : Char :=
  let c := c % 36
  if c ≤ 9 then Char.ofNat (c + 48)
  else if upper then Char.ofNat (c - 10 + 65)
  else Char.ofNat (c - 10 + 97)

/-! ## Notes and the note pipeline (src/note_events.rs) -/

/-- The `Note` record of src/note_events.rs.  All `u8`/`u64` fields are
modelled as `Nat`. -/
structure Note where
  note_type : Nat
  channel : Nat
  engine : Nat
  sample : Nat
  slot : Nat
  note_number : Nat
  velocity : Nat
  duration : Nat
  reverb : Nat
  started : Bool
  degree : Nat
  speed : Nat
deriving DecidableEq

/-- Lookup in an association list keyed by `(channel, note_number)` pairs;
models `HashMap::get` on the `note_set` of `notes_tick`. -/
def alookup (m : List ((Nat × Nat) × Note)) (k : Nat × Nat) : Option Note :=
  match m with
  | [] => none
  | (k', v) :: rest => if k' = k then some v else alookup rest k

/-- Remove the entry (if any) with the given key. -/
def aerase (m : List ((Nat × Nat) × Note)) (k : Nat × Nat) :
    List ((Nat × Nat) × Note) :=
  match m with
  | [] => []
  | (k', v) :: rest => if k' = k then aerase rest k else (k', v) :: aerase rest k

/-- Insert, replacing any previous entry with the same key; models
`HashMap::insert`. -/
def ainsert (m : List ((Nat × Nat) × Note)) (k : Nat × Nat) (v : Note) :
    List ((Nat × Nat) × Note) :=
  (k, v) :: aerase m k

/-- One iteration of the `for note in notes` loop of `notes_tick`
(src/note_events.rs lines 111-126), with the source's `key` and `duration`
let-bindings inlined.  `Nat` subtraction is truncated, which is exactly
`u64::saturating_sub`. -/
def notesTickStep (tick_time : Nat) (note_set : List ((Nat × Nat) × Note))
    (note : Note) : List ((Nat × Nat) × Note) :=
  if note.started then
    match alookup note_set (note.channel, note.note_number) with
    | some other_note =>
        if note.duration - tick_time ≤ other_note.duration then note_set
        else ainsert note_set (note.channel, note.note_number)
          { note with duration := note.duration - tick_time }
    | none => ainsert note_set (note.channel, note.note_number)
        { note with duration := note.duration - tick_time }
  else
    ainsert note_set (note.channel, note.note_number) note

/-- The `note_set` map built by `notes_tick` over the whole input slice. -/
def notesTickMap (notes : List Note) (tick_time : Nat) :
    List ((Nat × Nat) × Note) :=
  notes.foldl (notesTickStep tick_time) []

/-- `notes_tick` from src/note_events.rs: the values of the accumulated
map.  (`HashMap::values` returns them in an unspecified order; the claims
below only inspect the result through `alookup`, never through the order.) -/
def notes_tick (notes : List Note) (tick_time : Nat) : List Note :=
  (notesTickMap notes tick_time).map (·.2)

/-- A convenient all-zero note. -/
def Note.zero : Note :=
  { note_type := 0, channel := 0, engine := 0, sample := 0, slot := 0,
    note_number := 0, velocity := 0, duration := 0, reverb := 0,
    started := false, degree := 0, speed := 0 }

/-! ### Association-list lemmas -/

theorem alookup_ainsert_self (m : List ((Nat × Nat) × Note)) (k : Nat × Nat)
    (v : Note) : alookup (ainsert m k v) k = some v := by
  simp [ainsert, alookup]

theorem alookup_aerase_ne (m : List ((Nat × Nat) × Note)) (k k' : Nat × Nat)
    (h : k' ≠ k) : alookup (aerase m k) k' = alookup m k' := by
  induction m with
  | nil => rfl
  | cons p rest ih =>
      obtain ⟨pk, pv⟩ := p
      show alookup (if pk = k then aerase rest k else (pk, pv) :: aerase rest k) k' =
        if pk = k' then some pv else alookup rest k'
      by_cases hk : pk = k
      · rw [if_pos hk, ih, if_neg (fun hh => h ((hk.symm.trans hh).symm))]
      · rw [if_neg hk]
        show (if pk = k' then some pv else alookup (aerase rest k) k') =
          if pk = k' then some pv else alookup rest k'
        rw [ih]

theorem alookup_ainsert_ne (m : List ((Nat × Nat) × Note)) (k k' : Nat × Nat)
    (v : Note) (h : k' ≠ k) :
    alookup (ainsert m k v) k' = alookup m k' := by
  have hk : k ≠ k' := fun hh => h hh.symm
  simp only [ainsert, alookup, if_neg hk]
  exact alookup_aerase_ne m k k' h

theorem notesTickStep_started_some (d : Nat) (m : List ((Nat × Nat) × Note))
    (note other_note : Note) (hst : note.started = true)
    (hget : alookup m (note.channel, note.note_number) = some other_note) :
    notesTickStep d m note =
      if note.duration - d ≤ other_note.duration then m
      else ainsert m (note.channel, note.note_number)
        { note with duration := note.duration - d } := by
  unfold notesTickStep
  rw [if_pos hst, hget]

theorem notesTickStep_started_none (d : Nat) (m : List ((Nat × Nat) × Note))
    (note : Note) (hst : note.started = true)
    (hget : alookup m (note.channel, note.note_number) = none) :
    notesTickStep d m note = ainsert m (note.channel, note.note_number)
      { note with duration := note.duration - d } := by
  unfold notesTickStep
  rw [if_pos hst, hget]

theorem notesTickStep_unstarted (d : Nat) (m : List ((Nat × Nat) × Note))
    (note : Note) (hst : note.started = false) :
    notesTickStep d m note = ainsert m (note.channel, note.note_number) note := by
  unfold notesTickStep
  rw [hst]
  rfl

/-! ### Claim theorems about the note pipeline -/

/-- The note used in the C2 counterexample: un-started, duration 5. -/
def c2note : Note := { Note.zero with duration := 5 }

/-- C2 counterexample: an un-started note with positive duration survives
`notes_tick` with its duration *unchanged*, not decremented: with
`duration = 5` and `tick_time = 3` the survivor keeps duration `5`,
whereas the claim predicts `max 0 (5 - 3) = 2`. -/
theorem notes_tick_unstarted_not_decremented :
    notes_tick [c2note] 3 = [c2note] ∧ c2note.duration = 5 ∧ (5 : Nat) ≠ 2 := by
  refine ⟨by decide, by decide, by decide⟩

/-- C2 (amended): every *started* note surviving `notes_tick` is an input
note whose duration was decremented by `tick_time`, saturating at zero
(`Nat` subtraction is saturating). -/
theorem notes_tick_started_durations (notes : List Note) (d : Nat)
    (k : Nat × Nat) (s : Note)
    (h1 : alookup (notesTickMap notes d) k = some s)
    (h2 : s.started = true) :
    ∃ n, n ∈ notes ∧ n.started = true ∧ (n.channel, n.note_number) = k ∧
      s = { n with duration := n.duration - d } ∧ s.duration = n.duration - d := by
  suffices h : ∀ (l : List Note) (m : List ((Nat × Nat) × Note)),
      (∀ x ∈ l, x ∈ notes) →
      (∀ k' s', alookup m k' = some s' → s'.started = true →
        ∃ n, n ∈ notes ∧ n.started = true ∧ (n.channel, n.note_number) = k' ∧
          s' = { n with duration := n.duration - d } ∧
          s'.duration = n.duration - d) →
      (∀ k' s', alookup (l.foldl (notesTickStep d) m) k' = some s' →
        s'.started = true →
        ∃ n, n ∈ notes ∧ n.started = true ∧ (n.channel, n.note_number) = k' ∧
          s' = { n with duration := n.duration - d } ∧
          s'.duration = n.duration - d) by
    exact h notes [] (fun x hx => hx) (fun k' s' hl => by simp [alookup] at hl)
      k s h1 h2
  intro l
  induction l with
  | nil => intro m _ hm k' s' hl hs; exact hm k' s' hl hs
  | cons note rest ih =>
      intro m hsub hm k' s' hl hs
      refine ih (notesTickStep d m note) (fun x hx => hsub x (.tail _ hx))
        ?_ k' s' hl hs
      intro k'' s'' hl'' hs''
      by_cases hst : note.started = true
      · cases hget : alookup m (note.channel, note.note_number) with
        | some other_note =>
            rw [notesTickStep_started_some d m note other_note hst hget] at hl''
            by_cases hdur : note.duration - d ≤ other_note.duration
            · rw [if_pos hdur] at hl''
              exact hm _ _ hl'' hs''
            · rw [if_neg hdur] at hl''
              by_cases hkey : k'' = (note.channel, note.note_number)
              · subst hkey
                rw [alookup_ainsert_self] at hl''
                have hval := Option.some.inj hl''
                exact ⟨note, hsub note (.head _), hst, rfl, hval.symm,
                  by rw [← hval]⟩
              · rw [alookup_ainsert_ne _ _ _ _ hkey] at hl''
                exact hm _ _ hl'' hs''
        | none =>
            rw [notesTickStep_started_none d m note hst hget] at hl''
            by_cases hkey : k'' = (note.channel, note.note_number)
            · subst hkey
              rw [alookup_ainsert_self] at hl''
              have hval := Option.some.inj hl''
              exact ⟨note, hsub note (.head _), hst, rfl, hval.symm,
                by rw [← hval]⟩
            · rw [alookup_ainsert_ne _ _ _ _ hkey] at hl''
              exact hm _ _ hl'' hs''
      · rw [Bool.not_eq_true] at hst
        rw [notesTickStep_unstarted d m note hst] at hl''
        by_cases hkey : k'' = (note.channel, note.note_number)
        · subst hkey
          rw [alookup_ainsert_self] at hl''
          have hval := Option.some.inj hl''
          rw [← hval] at hs''
          rw [hst] at hs''
          exact absurd hs'' (by decide)
        · rw [alookup_ainsert_ne _ _ _ _ hkey] at hl''
          exact hm _ _ hl'' hs''

/-- The started note of the C3 counterexample: duration 100. -/
def c3a : Note := { Note.zero with duration := 100, started := true }

/-- The un-started note of the C3 counterexample: duration 1, same
`(channel, note_number)` key as `c3a`. -/
def c3b : Note := { Note.zero with duration := 1 }

/-- C3 counterexample: with the un-started note first in the input list
and the started note second, the *started* note (whose decremented
duration 100 exceeds the un-started note's duration 1) is the one kept,
so the un-started candidate does not supersede regardless of order. -/
theorem notes_tick_unstarted_not_always_kept :
    alookup (notesTickMap [c3b, c3a] 0) (0, 0) = some c3a ∧
      c3a.started = true ∧ c3b.started = false ∧ c3a ≠ c3b := by
  refine ⟨by decide, by decide, by decide, by decide⟩

/-- C3 (amended): for a started note `a` and an un-started note `b` with
the same key, the un-started note is kept when it comes second; when it
comes first, it is kept only if its duration is at least `a`'s decremented
duration, and otherwise the started note (with its decremented duration)
wins. -/
theorem notes_tick_two_note_merge (a b : Note) (d : Nat)
    (ha : a.started = true) (hb : b.started = false)
    (hch : b.channel = a.channel) (hnn : b.note_number = a.note_number) :
    alookup (notesTickMap [a, b] d) (b.channel, b.note_number) = some b ∧
      alookup (notesTickMap [b, a] d) (b.channel, b.note_number) =
        some (if a.duration - d ≤ b.duration then b
              else { a with duration := a.duration - d }) := by
  have hkey : (a.channel, a.note_number) = (b.channel, b.note_number) := by
    rw [hch, hnn]
  constructor
  · show alookup (notesTickStep d (notesTickStep d [] a) b)
      (b.channel, b.note_number) = some b
    rw [notesTickStep_unstarted d _ b hb, alookup_ainsert_self]
  · show alookup (notesTickStep d (notesTickStep d [] b) a)
      (b.channel, b.note_number) = _
    rw [notesTickStep_unstarted d [] b hb]
    have hget : alookup (ainsert [] (b.channel, b.note_number) b)
        (a.channel, a.note_number) = some b := by
      rw [hkey, alookup_ainsert_self]
    rw [notesTickStep_started_some d _ a b ha hget]
    by_cases hdur : a.duration - d ≤ b.duration
    · rw [if_pos hdur, if_pos hdur, alookup_ainsert_self]
    · rw [if_neg hdur, if_neg hdur, ← hkey, alookup_ainsert_self]

/-- Witness for the amended C3 theorem at the concrete notes `c3a`, `c3b`
with `tick_time = 0`. -/
theorem notes_tick_two_note_merge_witness :
    c3a.started = true ∧ c3b.started = false ∧ c3b.channel = c3a.channel ∧
      c3b.note_number = c3a.note_number ∧
      (alookup (notesTickMap [c3a, c3b] 0) (c3b.channel, c3b.note_number) =
          some c3b ∧
        alookup (notesTickMap [c3b, c3a] 0) (c3b.channel, c3b.note_number) =
          some (if c3a.duration - 0 ≤ c3b.duration then c3b
                else { c3a with duration := c3a.duration - 0 })) :=
  ⟨rfl, rfl, rfl, rfl, notes_tick_two_note_merge c3a c3b 0 rfl rfl rfl rfl⟩

/-! ### The base-36 round-trip (C8) -/

/-- The 62 characters of the set `[0-9A-Za-z]`. -/
def base36Chars : List Char :=
  "0123456789abcdefghijklmnopqrstuvwxyzABCDEFGHIJKLMNOPQRSTUVWXYZ".toList

/-- C8: for every character in `[0-9A-Za-z]`, encoding the decoded pair
round-trips to the same character. -/
theorem base36_roundtrip (c : Char) (h : c ∈ base36Chars) :
    base_36_to_char (char_to_base_36 c).1 (char_to_base_36 c).2 = c := by
  have hall : ∀ c ∈ base36Chars,
      base_36_to_char (char_to_base_36 c).1 (char_to_base_36 c).2 = c := by
    decide
  exact hall c h

/-- Witness for the round-trip theorem at the concrete character `G`. -/
theorem base36_roundtrip_witness :
    'G' ∈ base36Chars ∧
      base_36_to_char (char_to_base_36 'G').1 (char_to_base_36 'G').2 = 'G' :=
  ⟨by decide, base36_roundtrip 'G' (by decide)⟩

/-- The started note of the C2 witness. -/
def c2wnote : Note := { Note.zero with duration := 5, started := true }

/-- Witness for the amended C2 theorem at a concrete input: a started note
of duration 5 ticked with `tick_time = 3` survives with duration 2. -/
theorem notes_tick_started_durations_witness :
    alookup (notesTickMap [c2wnote] 3) (0, 0) =
        some { c2wnote with duration := 2 } ∧
      ({ c2wnote with duration := 2 } : Note).started = true ∧
      ∃ n, n ∈ [c2wnote] ∧ n.started = true ∧ (n.channel, n.note_number) = (0, 0) ∧
        ({ c2wnote with duration := 2 } : Note) = { n with duration := n.duration - 3 } ∧
        ({ c2wnote with duration := 2 } : Note).duration = n.duration - 3 :=
  ⟨by decide, by decide,
    notes_tick_started_durations [c2wnote] 3 (0, 0) _ (by decide) (by decide)⟩

/-! ## The grid substrate (src/context.rs)

`Context` mirrors the Rust struct of the same name.  Omitted fields that no
claim touches: `cc` (the separate CC buffer, unused by the evaluator),
`app_state`, `midi_port` and `midi_port_name` (owned by the UI/MIDI-port
threads).  Added model-only fields: `fs` (the abstract file system behind
`save`/`load`; total, so every file open succeeds), `rng` (the oracle
behind `thread_rng`), `log` (a specification-only record of every grid
cell written during a tick) and `evals` (a counter of operator-evaluate
calls, used to index the oracles). -/

abbrev Grid := List (List Char)

/-- The `Port` struct of src/context.rs. -/
structure Port where
  name : String
  row : Int
  col : Int
  value : Char
deriving DecidableEq

/-- `Port::new`. -/
def Port.new (name : String) (row col : Int) (value : Char) : Port :=
  ⟨name, row, col, value⟩

/-- The `Globals` struct of src/context.rs. -/
structure Globals where
  global_key : Char
  global_scale : Char

structure Context where
  grid : Grid
  notes : List Note
  locks : List (Int × Int)
  -- the source field is named `variables`, a reserved word in Lean
  vars : List (Char × Char)
  ticks : Nat
  tempo : Nat
  divisions : Nat
  tick_time : Nat
  ports : List ((Int × Int) × String)
  rows : Nat
  cols : Nat
  global_scale : Char
  global_key : Char
  fs : String → Grid
  rng : Nat → Nat
  log : List (Int × Int × Char)
  evals : Nat

/-- The body of `Context::read` factored over a raw grid:
`grid.get(row).and_then(|r| r.get(col)).unwrap_or('\0')` after the
negativity test. -/
def gridRead (g : Grid) (row col : Int) : Char :=
  if row < 0 ∨ col < 0 then '\x00'
  else (g.getD row.toNat []).getD col.toNat '\x00'

/-- `Context::read` (src/context.rs lines 134-146). -/
def Context.read (ctx : Context) (row col : Int) : Char :=
  gridRead ctx.grid row col

/-- `Context::listen` (src/context.rs lines 152-156). -/
def Context.listen (ctx : Context) (name : String) (row col : Int)
    (default : Char) : Port :=
  let value := ctx.read row col
  let value := if value = '.' then default else value
  Port.new name row col value

/-- `Context::write` (src/context.rs lines 158-171).  The source writes
through `get_mut` chains, which silently do nothing out of range —
exactly the behaviour of `List.set`; the explicit in-range test here only
gates the specification-only `log` so that it records precisely the
writes that land. -/
def Context.write (ctx : Context) (row col : Int) (value : Char) : Context :=
  if row < 0 ∨ col < 0 then ctx
  else if row.toNat < ctx.grid.length ∧
      col.toNat < (ctx.grid.getD row.toNat []).length then
    { ctx with
      grid := ctx.grid.set row.toNat
        ((ctx.grid.getD row.toNat []).set col.toNat value),
      log := ctx.log ++ [(row, col, value)] }
  else ctx

/-- The default port name `format!("Port({},{})", row, col)`. -/
def portName (row col : Int) : String :=
  "Port(" ++ toString row ++ "," ++ toString col ++ ")"

/-- First-match lookup in the port-name map. -/
def plookup (ps : List ((Int × Int) × String)) (k : Int × Int) :
    Option String :=
  match ps with
  | [] => none
  | (k', v) :: rest => if k' = k then some v else plookup rest k

/-- `HashMap::entry(..).or_insert(..)`: keep the existing name, insert
otherwise (first writer wins). -/
def portsOrInsert (ps : List ((Int × Int) × String)) (k : Int × Int)
    (name : String) : List ((Int × Int) × String) :=
  match plookup ps k with
  | some _ => ps
  | none => (k, name) :: ps

/-- `Context::lock` (src/context.rs lines 228-234). -/
def Context.lock (ctx : Context) (row col : Int) : Context :=
  { ctx with
    locks := if (row, col) ∈ ctx.locks then ctx.locks else (row, col) :: ctx.locks,
    ports := portsOrInsert ctx.ports (row, col) (portName row col) }

/-- `Context::lock_with_name` (src/context.rs lines 236-240). -/
def Context.lock_with_name (ctx : Context) (row col : Int) (name : String) :
    Context :=
  { ctx with
    locks := if (row, col) ∈ ctx.locks then ctx.locks else (row, col) :: ctx.locks,
    ports := portsOrInsert ctx.ports (row, col) name }

/-- `Context::is_locked`. -/
def Context.is_locked (ctx : Context) (row col : Int) : Prop :=
  (row, col) ∈ ctx.locks

instance (ctx : Context) (row col : Int) : Decidable (ctx.is_locked row col) :=
  inferInstanceAs (Decidable ((row, col) ∈ ctx.locks))

/-- `Context::unlock_all`.  The port-name map is *not* cleared (the source
resets only `locks`). -/
def Context.unlock_all (ctx : Context) : Context :=
  { ctx with locks := [] }

/-- First-match lookup in the tick-local variable map. -/
def vlookup (m : List (Char × Char)) (k : Char) : Option Char :=
  match m with
  | [] => none
  | (k', v) :: rest => if k' = k then some v else vlookup rest k

/-- `Context::set_variable`: `HashMap::insert` modelled by shadowing cons
(reads take the first match, so the new binding replaces the old one). -/
def Context.set_variable (ctx : Context) (name value : Char) : Context :=
  { ctx with vars := (name, value) :: ctx.vars }

/-- `Context::read_variable`: defaults to `'.'`. -/
def Context.read_variable (ctx : Context) (name : Char) : Char :=
  (vlookup ctx.vars name).getD '.'

/-- `Context::clear_all_variables`. -/
def Context.clear_all_variables (ctx : Context) : Context :=
  { ctx with vars := [] }

/-- `Context::write_note`: push onto the note buffer. -/
def Context.write_note (ctx : Context) (note : Note) : Context :=
  { ctx with notes := ctx.notes ++ [note] }

/-- `str::trim_matches('.')`: drop leading and trailing dots. -/
def trimDotsList (l : List Char) : List Char :=
  ((l.dropWhile (· = '.')).reverse.dropWhile (· = '.')).reverse

/-- `name.trim_matches('.')` on strings. -/
def trimDots (s : String) : String :=
  String.mk (trimDotsList s.data)

/-- `Context::save` (src/context.rs lines 173-193): writes the current
grid to the session file named by the trimmed name.  The model stores it
in the abstract file system keyed by that name (the `orca/sessions/`
directory prefix is dropped uniformly). -/
def Context.save (ctx : Context) (name : String) : Context :=
  { ctx with fs := fun k => if k = trimDots name then ctx.grid else ctx.fs k }

/-- All cells of a grid, as write-log entries; used to record a `load` in
the specification log. -/
def gridEntries (g : Grid) : List (Int × Int × Char) :=
  (List.range g.length).flatMap fun r =>
    (List.range (g.getD r []).length).map fun c =>
      (Int.ofNat r, Int.ofNat c, (g.getD r []).getD c '\x00')

/-- `Context::load` (src/context.rs lines 195-210): for any name other
than `"buffer"` the grid is replaced wholesale by the file's contents;
`"buffer"` is a no-op.  The abstract `fs` is total, modelling executions
in which the file open succeeds (on a missing file the source falls back
to the `buffer` file and panics if that is also missing — a panicked tick
never completes and is outside this model).  The specification log records
every loaded cell as written. -/
def Context.load (ctx : Context) (name : String) : Context :=
  if name = "buffer" then ctx
  else
    { ctx with
      grid := ctx.fs (trimDots name),
      log := ctx.log ++ gridEntries (ctx.fs (trimDots name)) }

/-! ## Updates, operators and their application (src/operators.rs) -/

/-- The `Update` enum of src/operators.rs. -/
inductive Update where
  | Inputs (ports : List Port)
  | Outputs (ports : List Port)
  | Locks (ports : List Port)
  | Notes (notes : List Note)
  | Variables (vs : List (Char × Char))
  | Globals (globals : Globals)
  | Save (name : String)
  | Load (name : String)

/-- The `Operator` struct.  `evaluate` takes one extra argument relative
to the source's `fn(&Context, i32, i32) -> Vec<Update>`: the value of the
evaluation counter `evals` at the call.  Source evaluate functions close
over ambient state (the thread-local random generator, the file system),
so two calls on equal contexts need not return equal updates; indexing
the calls makes every concrete execution representable by a pure
function.  Deterministic operators ignore the index. -/
structure Operator where
  name : String
  evaluate : Nat → Context → Int → Int → List Update
  input_ports : List String
  output_ports : List String

/-- One arm of the `for update in updates` loop of `Operator::apply`
(src/operators.rs lines 77-123).  The source indexes
`self.input_ports[index]` / `self.output_ports[index]` and panics when an
evaluate returns more ports than declared labels (reachable, e.g., for
Generate with a large length operand); completed executions are modelled
by substituting an empty label. -/
def applyUpdate (op : Operator) (ctx : Context) (u : Update) : Context :=
  match u with
  | .Inputs ports =>
      ports.enum.foldl
        (fun ctx ip =>
          ctx.lock_with_name ip.2.row ip.2.col (op.input_ports.getD ip.1 ""))
        ctx
  | .Outputs ports =>
      ports.enum.foldl
        (fun ctx ip =>
          (ctx.write ip.2.row ip.2.col ip.2.value).lock_with_name ip.2.row
            ip.2.col (op.output_ports.getD ip.1 ""))
        ctx
  | .Locks ports => ports.foldl (fun ctx p => ctx.lock p.row p.col) ctx
  | .Notes notes => notes.foldl (fun ctx n => ctx.write_note n) ctx
  | .Variables vars => vars.foldl (fun ctx nv => ctx.set_variable nv.1 nv.2) ctx
  | .Globals g =>
      { ctx with global_key := g.global_key, global_scale := g.global_scale }
  | .Save name => ctx.save name
  | .Load name => ctx.load name

/-- `Operator::apply` (src/operators.rs lines 74-126): skip if the
operator's own cell is locked, otherwise evaluate (on the unmodified
context) and apply the updates in order. -/
def Operator.apply (op : Operator) (ctx : Context) (row col : Int) : Context :=
  if ctx.is_locked row col then ctx
  else
    (op.evaluate ctx.evals ctx row col).foldl (applyUpdate op)
      { ctx with evals := ctx.evals + 1 }

/-! ## The tick evaluator (src/operators.rs, `grid_tick`) -/

/-- Row-major enumeration of the two nested `for row { for col }` loops
of `grid_tick`. -/
def rowMajor (rows cols : Nat) : List (Int × Int) :=
  (List.range rows).flatMap fun r =>
    (List.range cols).map fun c => (Nat.cast r, Nat.cast c)

/-- One cell of the clear-previous-bangs loop. -/
def clearStep (ctx : Context) (rc : Int × Int) : Context :=
  if ctx.read rc.1 rc.2 = '*' then ctx.write rc.1 rc.2 '.' else ctx

/-- The clear-previous-bangs loop of `grid_tick`. -/
def clearBangs (ctx : Context) : Context :=
  (rowMajor ctx.rows ctx.cols).foldl clearStep ctx

/-- One cell of the tick-operator pass: look the cell's character up in
the tick-operator table and apply it. -/
def tickStep (tick_operators : Char → Option Operator) (ctx : Context)
    (rc : Int × Int) : Context :=
  match tick_operators (ctx.read rc.1 rc.2) with
  | some op => op.apply ctx rc.1 rc.2
  | none => ctx

/-- A `*` in one of the three probed neighbour cells (north, west,
south). -/
def bangAdjacent (ctx : Context) (row col : Int) : Prop :=
  ctx.read (row - 1) col = '*' ∨ ctx.read row (col - 1) = '*' ∨
    ctx.read (row + 1) col = '*'

instance (ctx : Context) (row col : Int) : Decidable (bangAdjacent ctx row col) :=
  inferInstanceAs (Decidable (_ ∨ _ ∨ _))

/-- One cell of the bang-operator pass. -/
def bangStep (bang_operators : Char → Option Operator) (ctx : Context)
    (rc : Int × Int) : Context :=
  match bang_operators (ctx.read rc.1 rc.2) with
  | some op =>
      if bangAdjacent ctx rc.1 rc.2 then op.apply ctx rc.1 rc.2 else ctx
  | none => ctx

/-- The tick-operator pass over the whole grid. -/
def tickPass (tick_operators : Char → Option Operator) (ctx : Context) :
    Context :=
  (rowMajor ctx.rows ctx.cols).foldl (tickStep tick_operators) ctx

/-- The bang-operator pass over the whole grid. -/
def bangPass (bang_operators : Char → Option Operator) (ctx : Context) :
    Context :=
  (rowMajor ctx.rows ctx.cols).foldl (bangStep bang_operators) ctx

/-- `grid_tick` (src/operators.rs lines 1780-1825): unlock, clear
variables, clear stale bangs, run the tick pass, run the bang pass,
increment the tick counter.  The `rows`/`cols` fields never change during
a tick, so reading them at each phase equals the source's snapshot at
function entry.  The `should_redraw_midi` UI flag is outside the model. -/
def grid_tick (tick_operators bang_operators : Char → Option Operator)
    (ctx : Context) : Context :=
  let ctx4 := bangPass bang_operators (tickPass tick_operators
    (clearBangs ctx.unlock_all.clear_all_variables))
  { ctx4 with ticks := ctx4.ticks + 1 }

/-! ## List access lemmas -/

theorem getD_set_self {α : Type} (l : List α) (i : Nat) (v d : α)
    (h : i < l.length) : (l.set i v).getD i d = v := by
  induction l generalizing i with
  | nil => simp at h
  | cons hd tl ih =>
      cases i with
      | zero => rfl
      | succ n => exact ih n (by simpa using h)

theorem getD_set_ne {α : Type} (l : List α) (i j : Nat) (v d : α)
    (h : i ≠ j) : (l.set i v).getD j d = l.getD j d := by
  induction l generalizing i j with
  | nil => rfl
  | cons hd tl ih =>
      cases i with
      | zero =>
          cases j with
          | zero => exact absurd rfl h
          | succ m => rfl
      | succ n =>
          cases j with
          | zero => rfl
          | succ m => exact ih n m (fun hh => h (by rw [hh]))

theorem getD_of_le {α : Type} (l : List α) (i : Nat) (d : α)
    (h : l.length ≤ i) : l.getD i d = d := by
  induction l generalizing i with
  | nil => rfl
  | cons hd tl ih =>
      cases i with
      | zero => simp at h
      | succ n => exact ih n (by simpa using h)

/-! ## Read/write lemmas on the grid substrate -/

/-- A non-nul read pins the coordinates inside the stored grid: negative
coordinates and out-of-extent indices all produce the default `'\x00'`. -/
theorem gridRead_ne_nul {g : Grid} {row col : Int}
    (h : gridRead g row col ≠ '\x00') :
    0 ≤ row ∧ 0 ≤ col ∧ row.toNat < g.length ∧
      col.toNat < (g.getD row.toNat []).length := by
  unfold gridRead at h
  by_cases hneg : row < 0 ∨ col < 0
  · rw [if_pos hneg] at h
    exact absurd rfl h
  · rw [if_neg hneg] at h
    push_neg at hneg
    refine ⟨hneg.1, hneg.2, ?_, ?_⟩
    · by_contra hlen
      push_neg at hlen
      rw [getD_of_le g row.toNat [] hlen] at h
      exact h rfl
    · by_contra hlen
      push_neg at hlen
      rw [getD_of_le _ _ _ hlen] at h
      exact h rfl

theorem gridRead_set_self (g : Grid) (row col : Int) (v : Char)
    (hr : 0 ≤ row) (hc : 0 ≤ col) (h1 : row.toNat < g.length)
    (h2 : col.toNat < (g.getD row.toNat []).length) :
    gridRead (g.set row.toNat ((g.getD row.toNat []).set col.toNat v))
      row col = v := by
  unfold gridRead
  rw [if_neg (by omega), getD_set_self _ _ _ _ h1, getD_set_self _ _ _ _ h2]

/-- Writing a cell that reads non-nul lands: reading it back gives the
written value. -/
theorem read_write_self (ctx : Context) (row col : Int) (v : Char)
    (h : ctx.read row col ≠ '\x00') :
    (ctx.write row col v).read row col = v := by
  obtain ⟨hr, hc, hlr, hlc⟩ := gridRead_ne_nul h
  unfold Context.write
  rw [if_neg (by omega : ¬(row < 0 ∨ col < 0)), if_pos ⟨hlr, hlc⟩]
  exact gridRead_set_self ctx.grid row col v hr hc hlr hlc

/-- A write never changes any other cell. -/
theorem read_write_ne (ctx : Context) (row col r' c' : Int) (v : Char)
    (h : (r', c') ≠ (row, col)) :
    (ctx.write row col v).read r' c' = ctx.read r' c' := by
  unfold Context.write
  by_cases h1 : row < 0 ∨ col < 0
  · rw [if_pos h1]
  · rw [if_neg h1]
    by_cases h2 : row.toNat < ctx.grid.length ∧
        col.toNat < (ctx.grid.getD row.toNat []).length
    · rw [if_pos h2]
      show gridRead _ r' c' = gridRead ctx.grid r' c'
      unfold gridRead
      by_cases h3 : r' < 0 ∨ c' < 0
      · rw [if_pos h3, if_pos h3]
      · rw [if_neg h3, if_neg h3]
        push_neg at h1 h3
        by_cases h4 : r'.toNat = row.toNat
        · have h5 : r' = row := by omega
          have h6 : c'.toNat ≠ col.toNat := by
            intro hh
            apply h
            have h7 : c' = col := by omega
            rw [h5, h7]
          rw [h4, getD_set_self _ _ _ _ h2.1,
            getD_set_ne _ _ _ _ _ (fun hh => h6 hh.symm)]
        · rw [getD_set_ne _ _ _ _ _ (fun hh => h4 hh.symm)]
    · rw [if_neg h2]

/-- The write log only grows. -/
theorem write_log_mono (ctx : Context) (row col : Int) (v : Char) :
    ∀ x ∈ ctx.log, x ∈ (ctx.write row col v).log := by
  intro x hx
  unfold Context.write
  by_cases h1 : row < 0 ∨ col < 0
  · rw [if_pos h1]; exact hx
  · rw [if_neg h1]
    by_cases h2 : row.toNat < ctx.grid.length ∧
        col.toNat < (ctx.grid.getD row.toNat []).length
    · rw [if_pos h2]
      exact List.mem_append_left _ hx
    · rw [if_neg h2]; exact hx

/-! ## The write-log invariant

During the operator passes of a tick, every grid cell either still holds
the value it had just after the stale bangs were cleared, or holds a value
recorded in the write log (grid writes and whole-grid loads are logged), or
reads as the out-of-extent default `'\x00'`. -/

def readLogInv (base s : Context) : Prop :=
  ∀ row col : Int, s.read row col = base.read row col ∨
    (row, col, s.read row col) ∈ s.log ∨ s.read row col = '\x00'

theorem readLogInv_congr (base s s' : Context) (h : readLogInv base s)
    (hg : s'.grid = s.grid) (hl : ∀ x ∈ s.log, x ∈ s'.log) :
    readLogInv base s' := by
  intro r c
  have hread : s'.read r c = s.read r c := by
    unfold Context.read
    rw [hg]
  rcases h r c with h3 | h3 | h3
  · left; rw [hread, h3]
  · right; left; rw [hread]; exact hl _ h3
  · right; right; rw [hread, h3]

theorem readLogInv_write (base ctx : Context) (row col : Int) (v : Char)
    (h : readLogInv base ctx) : readLogInv base (ctx.write row col v) := by
  intro r' c'
  by_cases hp : (r', c') = (row, col)
  · have hr : r' = row := congrArg Prod.fst hp
    have hc : c' = col := congrArg Prod.snd hp
    subst hr; subst hc
    unfold Context.write
    by_cases h1 : r' < 0 ∨ c' < 0
    · rw [if_pos h1]; exact h r' c'
    · rw [if_neg h1]
      by_cases h2 : r'.toNat < ctx.grid.length ∧
          c'.toNat < (ctx.grid.getD r'.toNat []).length
      · rw [if_pos h2]
        push_neg at h1
        right; left
        show (r', c', gridRead _ r' c') ∈ _
        rw [gridRead_set_self _ _ _ _ h1.1 h1.2 h2.1 h2.2]
        exact List.mem_append_right _ (List.mem_singleton.mpr rfl)
      · rw [if_neg h2]; exact h r' c'
  · rcases h r' c' with h3 | h3 | h3
    · left; rw [read_write_ne ctx row col r' c' v hp, h3]
    · right; left
      rw [read_write_ne ctx row col r' c' v hp]
      exact write_log_mono ctx row col v _ h3
    · right; right; rw [read_write_ne ctx row col r' c' v hp, h3]

/-- Every cell of a grid either reads as the default or appears among its
entries. -/
theorem gridRead_mem_entries (g : Grid) (row col : Int) :
    gridRead g row col = '\x00' ∨
      (row, col, gridRead g row col) ∈ gridEntries g := by
  by_cases h : gridRead g row col = '\x00'
  · left; exact h
  · right
    obtain ⟨hr, hc, h1, h2⟩ := gridRead_ne_nul h
    unfold gridEntries
    rw [List.mem_flatMap]
    refine ⟨row.toNat, List.mem_range.mpr h1, ?_⟩
    rw [List.mem_map]
    refine ⟨col.toNat, List.mem_range.mpr h2, ?_⟩
    have hr' : Int.ofNat row.toNat = row := Int.toNat_of_nonneg hr
    have hc' : Int.ofNat col.toNat = col := Int.toNat_of_nonneg hc
    rw [hr', hc']
    unfold gridRead
    rw [if_neg (by omega)]

theorem readLogInv_load (base ctx : Context) (name : String)
    (h : readLogInv base ctx) : readLogInv base (ctx.load name) := by
  unfold Context.load
  by_cases h1 : name = "buffer"
  · rw [if_pos h1]; exact h
  · rw [if_neg h1]
    intro r c
    cases gridRead_mem_entries (ctx.fs (trimDots name)) r c with
    | inl h2 => right; right; exact h2
    | inr h2 => right; left; exact List.mem_append_right _ h2

/-- Fold preservation of a state predicate. -/
theorem foldl_preserve {σ α : Type} (P : σ → Prop) (f : σ → α → σ)
    (hf : ∀ s x, P s → P (f s x)) :
    ∀ (l : List α) (s : σ), P s → P (l.foldl f s) := by
  intro l
  induction l with
  | nil => intro s hs; exact hs
  | cons x xs ih => intro s hs; exact ih _ (hf s x hs)

theorem readLogInv_applyUpdate (base : Context) (op : Operator) (u : Update) :
    ∀ ctx, readLogInv base ctx → readLogInv base (applyUpdate op ctx u) := by
  intro ctx h
  cases u with
  | Inputs ports =>
      refine foldl_preserve (readLogInv base) _ ?_ ports.enum ctx h
      intro s x hs
      exact readLogInv_congr base s _ hs rfl (fun _ hx => hx)
  | Outputs ports =>
      refine foldl_preserve (readLogInv base) _ ?_ ports.enum ctx h
      intro s x hs
      exact readLogInv_congr base _ _
        (readLogInv_write base s x.2.row x.2.col x.2.value hs) rfl
        (fun _ hx => hx)
  | Locks ports =>
      refine foldl_preserve (readLogInv base) _ ?_ ports ctx h
      intro s x hs
      exact readLogInv_congr base s _ hs rfl (fun _ hx => hx)
  | Notes notes =>
      refine foldl_preserve (readLogInv base) _ ?_ notes ctx h
      intro s x hs
      exact readLogInv_congr base s _ hs rfl (fun _ hx => hx)
  | Variables vs =>
      refine foldl_preserve (readLogInv base) _ ?_ vs ctx h
      intro s x hs
      exact readLogInv_congr base s _ hs rfl (fun _ hx => hx)
  | Globals g => exact readLogInv_congr base ctx _ h rfl (fun _ hx => hx)
  | Save name => exact readLogInv_congr base ctx _ h rfl (fun _ hx => hx)
  | Load name => exact readLogInv_load base ctx name h

theorem readLogInv_apply (base : Context) (op : Operator) (ctx : Context)
    (row col : Int) (h : readLogInv base ctx) :
    readLogInv base (op.apply ctx row col) := by
  unfold Operator.apply
  by_cases hl : ctx.is_locked row col
  · rw [if_pos hl]; exact h
  · rw [if_neg hl]
    exact foldl_preserve _ _
      (fun s u hs => readLogInv_applyUpdate base op u s hs) _ _
      (readLogInv_congr base ctx _ h rfl (fun _ hx => hx))

theorem readLogInv_tickStep (base : Context)
    (ops : Char → Option Operator) (ctx : Context) (rc : Int × Int)
    (h : readLogInv base ctx) : readLogInv base (tickStep ops ctx rc) := by
  unfold tickStep
  cases hop : ops (ctx.read rc.1 rc.2) with
  | some op => exact readLogInv_apply base op ctx rc.1 rc.2 h
  | none => exact h

theorem readLogInv_bangStep (base : Context)
    (ops : Char → Option Operator) (ctx : Context) (rc : Int × Int)
    (h : readLogInv base ctx) : readLogInv base (bangStep ops ctx rc) := by
  unfold bangStep
  cases hop : ops (ctx.read rc.1 rc.2) with
  | some op =>
      show readLogInv base
        (if bangAdjacent ctx rc.1 rc.2 then op.apply ctx rc.1 rc.2 else ctx)
      by_cases hb : bangAdjacent ctx rc.1 rc.2
      · rw [if_pos hb]; exact readLogInv_apply base op ctx rc.1 rc.2 h
      · rw [if_neg hb]; exact h
  | none => exact h

/-! ## The clear phase removes every stale bang -/

theorem clearStep_self (ctx : Context) (rc : Int × Int) :
    (clearStep ctx rc).read rc.1 rc.2 ≠ '*' := by
  unfold clearStep
  by_cases h : ctx.read rc.1 rc.2 = '*'
  · rw [if_pos h, read_write_self ctx rc.1 rc.2 '.' (by rw [h]; decide)]
    decide
  · rw [if_neg h]; exact h

theorem clearStep_ne (ctx : Context) (rc rc' : Int × Int) (h : rc' ≠ rc) :
    (clearStep ctx rc).read rc'.1 rc'.2 = ctx.read rc'.1 rc'.2 := by
  unfold clearStep
  by_cases h1 : ctx.read rc.1 rc.2 = '*'
  · rw [if_pos h1]
    refine read_write_ne ctx rc.1 rc.2 rc'.1 rc'.2 '.' ?_
    intro hh
    apply h
    rw [Prod.mk.eta, Prod.mk.eta] at hh
    exact hh
  · rw [if_neg h1]

theorem clear_fold (l : List (Int × Int)) :
    ∀ (ctx : Context) (rc : Int × Int),
      (rc ∈ l ∨ ctx.read rc.1 rc.2 ≠ '*') →
      (l.foldl clearStep ctx).read rc.1 rc.2 ≠ '*' := by
  induction l with
  | nil =>
      intro ctx rc h
      cases h with
      | inl h => cases h
      | inr h => exact h
  | cons a l ih =>
      intro ctx rc h
      apply ih (clearStep ctx a) rc
      by_cases hmem : rc ∈ l
      · left; exact hmem
      · right
        cases h with
        | inl h =>
            have ha : rc = a := by
              cases h with
              | head => rfl
              | tail _ h' => exact absurd h' hmem
            rw [ha]
            exact clearStep_self ctx a
        | inr h =>
            by_cases ha : rc = a
            · rw [ha]; exact clearStep_self ctx a
            · rw [clearStep_ne ctx a rc ha]; exact h

theorem mem_rowMajor (rows cols : Nat) (r c : Int) :
    (r, c) ∈ rowMajor rows cols ↔
      0 ≤ r ∧ r < (rows : Int) ∧ 0 ≤ c ∧ c < (cols : Int) := by
  constructor
  · intro hmem
    unfold rowMajor at hmem
    obtain ⟨a, ha, hmem⟩ := List.mem_flatMap.mp hmem
    obtain ⟨b, hb, heq⟩ := List.mem_map.mp hmem
    rw [List.mem_range] at ha hb
    rw [Prod.mk.injEq] at heq
    obtain ⟨h1, h2⟩ := heq
    omega
  · rintro ⟨h1, h2, h3, h4⟩
    unfold rowMajor
    refine List.mem_flatMap.mpr ⟨r.toNat, List.mem_range.mpr (by omega), ?_⟩
    refine List.mem_map.mpr ⟨c.toNat, List.mem_range.mpr (by omega), ?_⟩
    have hr' : (Nat.cast r.toNat : Int) = r := by omega
    have hc' : (Nat.cast c.toNat : Int) = c := by omega
    rw [hr', hc']

/-- After the clear phase of a well-formed context, no cell reads `'*'`. -/
theorem clearBangs_no_bang (ctx : Context)
    (hwf1 : ctx.grid.length = ctx.rows)
    (hwf2 : ∀ row ∈ ctx.grid, row.length = ctx.cols) :
    ∀ r c : Int, (clearBangs ctx).read r c ≠ '*' := by
  intro r c
  apply clear_fold (rowMajor ctx.rows ctx.cols) ctx (r, c)
  by_cases hmem : (r, c) ∈ rowMajor ctx.rows ctx.cols
  · left; exact hmem
  · right
    intro hread
    have hnul : ctx.read r c ≠ '\x00' := by rw [hread]; decide
    obtain ⟨hr, hc, h1, h2⟩ := gridRead_ne_nul hnul
    have hrowlen : (ctx.grid.getD r.toNat []).length = ctx.cols := by
      apply hwf2
      rw [List.getD_eq_getElem ctx.grid [] h1]
      exact List.getElem_mem h1
    apply hmem
    rw [mem_rowMajor]
    refine ⟨hr, by omega, hc, by omega⟩

/-- The operator passes over the cleared grid leave a `'*'` only where
the write log records one. -/
theorem passes_no_stale_bangs_aux
    (tick_operators bang_operators : Char → Option Operator) (ctx : Context)
    (hwf1 : ctx.grid.length = ctx.rows)
    (hwf2 : ∀ row ∈ ctx.grid, row.length = ctx.cols)
    (r c : Int)
    (hbang : (bangPass bang_operators (tickPass tick_operators
      (clearBangs ctx.unlock_all.clear_all_variables))).read r c = '*') :
    (r, c, '*') ∈ (bangPass bang_operators (tickPass tick_operators
      (clearBangs ctx.unlock_all.clear_all_variables))).log := by
  have hclear : ∀ r' c' : Int,
      (clearBangs ctx.unlock_all.clear_all_variables).read r' c' ≠ '*' :=
    clearBangs_no_bang ctx.unlock_all.clear_all_variables hwf1 hwf2
  have hinv : readLogInv (clearBangs ctx.unlock_all.clear_all_variables)
      (bangPass bang_operators (tickPass tick_operators
        (clearBangs ctx.unlock_all.clear_all_variables))) := by
    unfold bangPass tickPass
    refine foldl_preserve _ _
      (fun s rc hs => readLogInv_bangStep _ bang_operators s rc hs) _ _ ?_
    refine foldl_preserve _ _
      (fun s rc hs => readLogInv_tickStep _ tick_operators s rc hs) _ _ ?_
    intro r' c'
    left
    rfl
  rcases hinv r c with h | h | h
  · rw [hbang] at h
    exact absurd h.symm (hclear r c)
  · rw [hbang] at h
    exact h
  · rw [hbang] at h
    exact absurd h (by decide)

set_option maxHeartbeats 2000000 in
/-- C1: after one `grid_tick` on a well-formed context (a dense
rectangular grid matching the `rows`/`cols` fields) whose write log starts
empty, every cell that reads `'*'` has a corresponding `'*'` entry in the
tick's write log: the stale bangs are all cleared before operator
evaluation, so any `'*'` present afterwards was freshly written during
this tick (by an operator output write or a grid load), never one that was
present at the start. -/
theorem grid_tick_no_stale_bangs
    (tick_operators bang_operators : Char → Option Operator) (ctx : Context)
    (hwf1 : ctx.grid.length = ctx.rows)
    (hwf2 : ∀ row ∈ ctx.grid, row.length = ctx.cols)
    (hlog : ctx.log = [])
    (r c : Int)
    (hbang : (grid_tick tick_operators bang_operators ctx).read r c = '*') :
    (r, c, '*') ∈ (grid_tick tick_operators bang_operators ctx).log :=
  passes_no_stale_bangs_aux tick_operators bang_operators ctx hwf1 hwf2 r c
    hbang

/-! ## Note tables (src/utils.rs) -/

/-- `NATURAL_NOTES` from src/utils.rs. -/
def NATURAL_NOTES : List Nat := [9, 11, 0, 2, 4, 5, 7]

/-- `SHARP_NOTES` from src/utils.rs. -/
def SHARP_NOTES : List Nat := [10, 12, 1, 3, 5, 6, 8]

/-- `SCALES` from src/utils.rs: major, minor, dorian, phrygian, lydian,
mixolydian, locrian, harmonic minor, harmonic major, melodic minor,
melodic major, super locrian, romanian minor, hungarian minor, neapolitan
minor, enigmatic, spanish, leading whole, lydian minor, neapolitan major,
locrian major, todi, purvi, marva, bhairav, ahirbhairav. -/
def SCALES : List (List Nat) :=
  [[0, 2, 4, 5, 7, 9, 11],
   [0, 2, 3, 5, 7, 8, 10],
   [0, 2, 3, 5, 7, 9, 10],
   [0, 1, 3, 5, 7, 8, 10],
   [0, 2, 4, 6, 7, 9, 11],
   [0, 2, 4, 5, 7, 9, 10],
   [0, 1, 3, 5, 6, 8, 10],
   [0, 2, 3, 5, 7, 8, 11],
   [0, 2, 4, 5, 7, 8, 11],
   [0, 2, 3, 5, 7, 9, 11],
   [0, 2, 4, 5, 7, 8, 10],
   [0, 1, 3, 4, 6, 8, 10],
   [0, 2, 3, 6, 7, 9, 10],
   [0, 2, 3, 6, 7, 8, 11],
   [0, 1, 3, 5, 7, 8, 11],
   [0, 1, 4, 6, 8, 10, 11],
   [0, 1, 4, 5, 7, 8, 10],
   [0, 2, 4, 6, 8, 10, 11],
   [0, 2, 4, 6, 7, 8, 10],
   [0, 1, 3, 5, 7, 9, 11],
   [0, 2, 4, 5, 6, 8, 10],
   [0, 1, 3, 6, 7, 8, 11],
   [0, 1, 4, 6, 7, 8, 11],
   [0, 1, 4, 6, 7, 9, 11],
   [0, 1, 4, 5, 7, 8, 11],
   [0, 1, 4, 5, 7, 9, 10]]

/-! ## Pitch helpers -/

/-- `prepare_note` (src/operators.rs lines 989-1003).  All arithmetic in
the source is on `u8`; additions and the multiplication compose with the
wrap, so a single final `% 256` is equivalent to per-operation wrapping.
The `SCALES.get(..).expect(..)` and `selected_scale.get(..).expect(..)`
indices are reduced `% 26` and `% 7` respectively, so they always succeed;
`getD` coincides with them there (the source's `SHARP_NOTES[note_index]`
indexing panics only for `note_index ≥ 7`, and every caller passes a value
reduced `% 7`). -/
def prepare_note (octave : Nat) (note_upper : Bool)
    (degree scale octave_offset : Nat) (note_index : Nat) : Nat :=
  let note_offset := if !note_upper then SHARP_NOTES.getD note_index 0
    else NATURAL_NOTES.getD note_index 0
  let octave := octave + octave_offset
  let selected_scale := SCALES.getD (scale % 26) []
  let scale_offset :=
    (if degree ≤ 6 then 0
     else if degree ≤ 13 then 12
     else if degree ≤ 20 then 24
     else if degree ≤ 27 then 36
     else if degree ≤ 34 then 48
     else 60) + selected_scale.getD (degree % 7) 0
  (scale_offset + 12 * octave + note_offset) % 256

/-- `Note::from_base_36` (src/note_events.rs lines 45-90).  The source's
`base_note - 10` is a wrapping `u8` subtraction, written here as
`+ 246 mod 256`; the velocity conversion
`(velocity as f32 * (127.0 / 35.0)) as u8` equals `velocity * 127 / 35`
in integers for every `velocity ≤ 35` (the f32 rounding never crosses an
integer boundary on that range). -/
def Note.from_base_36 (note_type channel engine sample slot base_octave
    base_note : Nat) (sharp : Bool) (degree velocity duration reverb : Nat)
    (tick_time : Nat) (speed : Nat) : Note :=
  let note_index := (base_note + 246) % 256 % 7
  let octave_offset := 1 + (base_note + 246) % 256 / 7
  let note_offset := if sharp then SHARP_NOTES.getD note_index 0
    else NATURAL_NOTES.getD note_index 0
  let octave := (base_octave + octave_offset) % 256
  let note_number := (12 * octave + note_offset) % 256
  let velocity := velocity * 127 / 35
  let duration := duration * tick_time
  { note_type := note_type, channel := channel, engine := engine,
    sample := sample, slot := slot, note_number := note_number,
    velocity := velocity, duration := duration, started := false,
    degree := degree, reverb := reverb, speed := speed }

/-! ## The operator library (src/operators.rs)

Each function below is the evaluate function of one operator, translated
line by line.  `Random` and `Bernoulli` additionally take the evaluation
index at which they consult the `rng` oracle. -/

def global (context : Context) (row col : Int) : List Update :=
  let key_port := context.listen "key" row (col + 1) 'C'
  let scale_port := context.listen "scale" row (col + 2) '0'
  let key := key_port.value
  let scale := scale_port.value
  [Update.Inputs [key_port, scale_port],
   Update.Globals { global_key := key, global_scale := scale }]

/-- `add` is defined by the source but absent from the default operator
configuration (there is no `A Add` line), so it never enters the operator
maps below. -/
def add (context : Context) (row col : Int) : List Update :=
  let a_port := context.listen "a" row (col - 1) '0'
  let b_port := context.listen "b" row (col + 1) '0'
  let (a, a_upper) := char_to_base_36 a_port.value
  let (b, b_upper) := char_to_base_36 b_port.value
  let out := base_36_to_char (a + b) (a_upper || b_upper)
  let out_port := Port.new "out" (row + 1) col out
  [Update.Inputs [a_port, b_port], Update.Outputs [out_port]]

def sub (context : Context) (row col : Int) : List Update :=
  let a_port := context.listen "a" row (col - 1) '0'
  let b_port := context.listen "b" row (col + 1) '0'
  let (a, a_upper) := char_to_base_36 a_port.value
  let (b, b_upper) := char_to_base_36 b_port.value
  let diff := if a > b then a - b else b - a
  let out := base_36_to_char diff (a_upper || b_upper)
  let out_port := Port.new "out" (row + 1) col out
  [Update.Inputs [a_port, b_port], Update.Outputs [out_port]]

def delay (context : Context) (row col : Int) : List Update :=
  let rate_port := context.listen "rate" row (col - 1) '1'
  let mod_port := context.listen "mod" row (col + 1) '8'
  let (rate, _) := char_to_base_36 rate_port.value
  let (delay_mod, _) := char_to_base_36 mod_port.value
  let rate := max rate 1
  let delay_mod := max delay_mod 1
  let out_port := context.listen "out" (row + 1) col '.'
  let out_port := if context.ticks % (rate * delay_mod) = 0
    then { out_port with value := '*' } else out_port
  [Update.Inputs [rate_port, mod_port], Update.Outputs [out_port]]

/-- `random`: the source's `thread_rng().gen_range(min..max)` is modelled
as `min + draw % (max - min)` with the draw taken from the `rng` oracle at
the evaluation index; the range is non-empty thanks to the preceding
`max(min + 1)`.  The source's `min`/`max` locals are renamed `mn`/`mx`
(Lean built-ins). -/
def random (n : Nat) (context : Context) (row col : Int) : List Update :=
  let min_port := context.listen "min" row (col - 1) '0'
  let max_port := context.listen "max" row (col + 1) 'z'
  let (mn, min_upper) := char_to_base_36 min_port.value
  let (mx, max_upper) := char_to_base_36 max_port.value
  let mx := max mx (mn + 1)
  let r := mn + context.rng n % (mx - mn)
  let out := base_36_to_char r (min_upper || max_upper)
  let out_port := Port.new "out" (row + 1) col out
  [Update.Inputs [min_port, max_port], Update.Outputs [out_port]]

def scaler (context : Context) (row col : Int) : List Update :=
  let channel_port := context.listen "channel" row (col + 1) '0'
  let octave_port := context.listen "octave" row (col + 2) '2'
  let degree_port := context.listen "degree" row (col + 3) '0'
  let velocity_port := context.listen "velocity" row (col + 4) 'u'
  let duration_port := context.listen "duration" row (col + 5) '2'
  let (channel, _) := char_to_base_36 channel_port.value
  let (octave, _) := char_to_base_36 octave_port.value
  let (note, note_upper) := char_to_base_36 context.global_key
  let (velocity, _) := char_to_base_36 velocity_port.value
  let (duration, _) := char_to_base_36 duration_port.value
  let (degree, _) := char_to_base_36 degree_port.value
  let (scale, _) := char_to_base_36 context.global_scale
  -- (note - 10) % 7 and (note - 10) / 7 with wrapping u8 subtraction
  let note_index := (note + 246) % 256 % 7
  let octave_offset := 1 + (note + 246) % 256 / 7
  let note_number :=
    prepare_note octave note_upper degree scale octave_offset note_index
  let velocity := velocity * 127 / 35
  let duration := duration * context.tick_time
  let midi_notes :=
    if context.read (row - 1) col = '*' ∨ context.read row (col - 1) = '*' ∨
        context.read (row + 1) col = '*' then
      [{ note_type := 0, channel := channel, engine := 0, sample := 0,
         slot := 0, note_number := note_number, velocity := velocity,
         duration := duration, started := false, degree := degree,
         reverb := 0, speed := 0 }]
    else []
  [Update.Inputs [channel_port, octave_port, degree_port, velocity_port,
     duration_port],
   Update.Notes midi_notes]

def midi_note (context : Context) (row col : Int) : List Update :=
  let channel_port := context.listen "channel" row (col + 1) '0'
  let octave_port := context.listen "octave" row (col + 2) '2'
  let note_port := context.listen "note" row (col + 3) 'C'
  let velocity_port := context.listen "velocity" row (col + 4) 'u'
  let duration_port := context.listen "duration" row (col + 5) '1'
  let note_type := 0
  let (channel, _) := char_to_base_36 channel_port.value
  let (octave, _) := char_to_base_36 octave_port.value
  let (note, note_upper) := char_to_base_36 note_port.value
  let (velocity, _) := char_to_base_36 velocity_port.value
  let (duration, _) := char_to_base_36 duration_port.value
  let midi_notes :=
    if 10 ≤ note ∧ (context.read (row - 1) col = '*' ∨
        context.read row (col - 1) = '*' ∨
        context.read (row + 1) col = '*') then
      [Note.from_base_36 note_type channel 0 0 0 octave note (!note_upper) 0
        velocity duration 0 context.tick_time 0]
    else []
  [Update.Inputs [channel_port, octave_port, note_port, velocity_port,
     duration_port],
   Update.Notes midi_notes]

def midi_cc (context : Context) (row col : Int) : List Update :=
  let channel_port := context.listen "channel" row (col + 1) '0'
  let command_port := context.listen "comman" row (col + 2) '0'
  let value_port := context.listen "value" row (col + 3) '0'
  let (channel, _) := char_to_base_36 channel_port.value
  let (command, _) := char_to_base_36 command_port.value
  let (value, _) := char_to_base_36 value_port.value
  let channel := channel + 176
  let cc_notes :=
    if context.read (row - 1) col = '*' ∨ context.read row (col - 1) = '*' ∨
        context.read (row + 1) col = '*' then
      [{ note_type := 3, channel := channel, engine := 0, sample := 0,
         slot := 0, note_number := 0, velocity := value, duration := 1,
         reverb := 0, started := false, degree := command, speed := 0 }]
    else []
  [Update.Inputs [channel_port, command_port, value_port],
   Update.Notes cc_notes]

def synth (context : Context) (row col : Int) : List Update :=
  let engine_port := context.listen "engine" row (col + 1) '0'
  let octave_port := context.listen "octave" row (col + 2) '2'
  let degree_port := context.listen "degree" row (col + 3) '0'
  let velocity_port := context.listen "velocity" row (col + 4) '9'
  let duration_port := context.listen "duration" row (col + 5) '2'
  let reverb_port := context.listen "reverb" row (col + 6) '0'
  let fm_port := context.listen "fm" row (col + 7) '1'
  let (engine, _) := char_to_base_36 engine_port.value
  let (octave, _) := char_to_base_36 octave_port.value
  let (note, note_upper) := char_to_base_36 context.global_key
  let (velocity, _) := char_to_base_36 velocity_port.value
  let (duration, _) := char_to_base_36 duration_port.value
  let (degree, _) := char_to_base_36 degree_port.value
  let (scale, _) := char_to_base_36 context.global_scale
  let (reverb, _) := char_to_base_36 reverb_port.value
  let (fm, _) := char_to_base_36 fm_port.value
  let note_index := (note + 246) % 256 % 7
  let octave_offset := 1 + (note + 246) % 256 / 7
  let note_number :=
    prepare_note octave note_upper degree scale octave_offset note_index
  let velocity := velocity * 127 / 35
  let duration := duration * context.tick_time
  let midi_notes :=
    if context.read (row - 1) col = '*' ∨ context.read row (col - 1) = '*' ∨
        context.read (row + 1) col = '*' then
      [{ note_type := 1, channel := 0, engine := engine, sample := 0,
         slot := 0, note_number := note_number, velocity := velocity,
         duration := duration, started := false, degree := degree,
         reverb := reverb, speed := fm }]
    else []
  [Update.Inputs [engine_port, octave_port, degree_port, velocity_port,
     duration_port, reverb_port, fm_port],
   Update.Notes midi_notes]

def sampler (context : Context) (row col : Int) : List Update :=
  let slot_port := context.listen "slot" row (col + 1) '0'
  let sample_port := context.listen "sample" row (col + 2) '0'
  let velocity_port := context.listen "velocity" row (col + 3) '9'
  let duration_port := context.listen "duration" row (col + 4) '4'
  let reverb_port := context.listen "reverb" row (col + 5) '0'
  -- the source names this port "reverb" as well
  let speed_port := context.listen "reverb" row (col + 6) '1'
  let (slot, _) := char_to_base_36 slot_port.value
  let (sample, _) := char_to_base_36 sample_port.value
  let (velocity, _) := char_to_base_36 velocity_port.value
  let (duration, _) := char_to_base_36 duration_port.value
  let (reverb, _) := char_to_base_36 reverb_port.value
  let (speed, _) := char_to_base_36 speed_port.value
  let sampler_notes :=
    if context.read (row - 1) col = '*' ∨ context.read row (col - 1) = '*' ∨
        context.read (row + 1) col = '*' then
      [Note.from_base_36 2 0 0 sample (slot % 4) 0 slot false 0 velocity
        duration reverb context.tick_time speed]
    else []
  [Update.Inputs [slot_port, sample_port, velocity_port, duration_port,
     reverb_port, speed_port],
   Update.Notes sampler_notes]

/-- `clock`: `ticks / rate % clock_mod` is below 36, so the source's
`as u8` truncation never loses anything. -/
def clock (context : Context) (row col : Int) : List Update :=
  let rate_port := context.listen "rate" row (col - 1) '1'
  let mod_port := context.listen "mod" row (col + 1) '8'
  let (rate, _) := char_to_base_36 rate_port.value
  let (clock_mod, mod_upper) := char_to_base_36 mod_port.value
  let rate := max rate 1
  let clock_mod := max clock_mod 1
  let out := context.ticks / rate % clock_mod
  let out := base_36_to_char out mod_upper
  let out_port := Port.new "out" (row + 1) col out
  [Update.Inputs [rate_port, mod_port], Update.Outputs [out_port]]

def track (context : Context) (row col : Int) : List Update :=
  let key_port := context.listen "key" row (col - 2) '0'
  let len_port := context.listen "len" row (col - 1) '1'
  let (key, _) := char_to_base_36 key_port.value
  let (len, _) := char_to_base_36 len_port.value
  let len := max len 1
  let val_port := context.listen "val" row (col + 1 + Int.ofNat (key % len)) '\x00'
  let out := val_port.value
  let out_port := Port.new "out" (row + 1) col out
  let locks := (List.range len).map fun i =>
    Port.new "locked" row (col + 1 + Int.ofNat i) '\x00'
  [Update.Inputs [key_port, len_port, val_port], Update.Outputs [out_port],
   Update.Locks locks]

def halt (context : Context) (row col : Int) : List Update :=
  let output_port := context.listen "out" (row + 1) col '\x00'
  [Update.Inputs [output_port], Update.Outputs [output_port],
   Update.Locks [output_port]]

def east (context : Context) (row col : Int) : List Update :=
  if col + 1 ≥ Int.ofNat context.cols then
    let input_port := context.listen "" row col '.'
    let input_port := { input_port with value := '*' }
    [Update.Outputs [input_port]]
  else
    let input_port := context.listen "" row col '.'
    let output_port := context.listen "" row (col + 1) '.'
    if output_port.value = '.' then
      let output_port := { output_port with value := input_port.value }
      let input_port := { input_port with value := '.' }
      [Update.Outputs [input_port, output_port], Update.Locks [output_port]]
    else
      let input_port := { input_port with value := '*' }
      [Update.Outputs [input_port]]

def west (context : Context) (row col : Int) : List Update :=
  if col - 1 < 0 then
    let input_port := context.listen "" row col '.'
    let input_port := { input_port with value := '*' }
    [Update.Outputs [input_port]]
  else
    let input_port := context.listen "" row col '.'
    let output_port := context.listen "" row (col - 1) '.'
    if output_port.value = '.' then
      let output_port := { output_port with value := input_port.value }
      let input_port := { input_port with value := '.' }
      [Update.Outputs [input_port, output_port], Update.Locks [output_port]]
    else
      let input_port := { input_port with value := '*' }
      [Update.Outputs [input_port]]

def north (context : Context) (row col : Int) : List Update :=
  if row - 1 < 0 then
    let input_port := context.listen "" row col '.'
    let input_port := { input_port with value := '*' }
    [Update.Outputs [input_port]]
  else
    let input_port := context.listen "" row col '.'
    let output_port := context.listen "" (row - 1) col '.'
    if output_port.value = '.' then
      let output_port := { output_port with value := input_port.value }
      let input_port := { input_port with value := '.' }
      [Update.Outputs [input_port, output_port], Update.Locks [output_port]]
    else
      let input_port := { input_port with value := '*' }
      [Update.Outputs [input_port]]

def south (context : Context) (row col : Int) : List Update :=
  if row + 1 ≥ Int.ofNat context.rows then
    let input_port := context.listen "" row col '.'
    let input_port := { input_port with value := '*' }
    [Update.Outputs [input_port]]
  else
    let input_port := context.listen "" row col '.'
    let output_port := context.listen "" (row + 1) col '.'
    if output_port.value = '.' then
      let output_port := { output_port with value := input_port.value }
      let input_port := { input_port with value := '.' }
      [Update.Outputs [input_port, output_port], Update.Locks [output_port]]
    else
      let input_port := { input_port with value := '*' }
      [Update.Outputs [input_port]]

def condition (context : Context) (row col : Int) : List Update :=
  let a_port := context.listen "a" row (col - 1) '\x00'
  let b_port := context.listen "b" row (col + 1) '\x00'
  let (a, _) := char_to_base_36 a_port.value
  let (b, _) := char_to_base_36 b_port.value
  let out_port := context.listen "out" (row + 1) col '\x00'
  let out_port := if a = b then { out_port with value := '*' } else out_port
  [Update.Inputs [a_port, b_port], Update.Outputs [out_port]]

def increment (context : Context) (row col : Int) : List Update :=
  let step_port := context.listen "step" row (col - 1) '1'
  let mod_port := context.listen "mod" row (col + 1) 'z'
  let (step, _) := char_to_base_36 step_port.value
  let (increment_mod, mod_upper) := char_to_base_36 mod_port.value
  let increment_mod := max increment_mod 1
  let out_port := context.listen "out" (row + 1) col '0'
  let (out, _) := char_to_base_36 out_port.value
  let out := (out + step) % increment_mod
  let out_port := { out_port with value := base_36_to_char out mod_upper }
  [Update.Inputs [step_port, mod_port], Update.Outputs [out_port]]

def jump (context : Context) (row col : Int) : List Update :=
  let input_port := context.listen "input" (row - 1) col '\x00'
  let output_port := Port.new "output" (row + 1) col input_port.value
  [Update.Inputs [input_port], Update.Outputs [output_port]]

def jymp (context : Context) (row col : Int) : List Update :=
  let input_port := context.listen "input" row (col - 1) '\x00'
  let output_port := Port.new "output" row (col + 1) input_port.value
  [Update.Inputs [input_port], Update.Outputs [output_port]]

def lesser (context : Context) (row col : Int) : List Update :=
  let a_port := context.listen "a" row (col - 1) '\x00'
  let b_port := context.listen "b" row (col + 1) '\x00'
  let out :=
    if a_port.value ≠ '\x00' ∧ b_port.value ≠ '\x00' then
      let (a, a_upper) := char_to_base_36 a_port.value
      let (b, b_upper) := char_to_base_36 b_port.value
      let less := if a < b then a else b
      base_36_to_char less (a_upper || b_upper)
    else '\x00'
  let out_port := Port.new "out" (row + 1) col out
  [Update.Inputs [a_port, b_port], Update.Outputs [out_port]]

/-- `multiply`: `u8::saturating_mul` is `min (a * b) 255`. -/
def multiply (context : Context) (row col : Int) : List Update :=
  let a_port := context.listen "a" row (col - 1) '0'
  let b_port := context.listen "b" row (col + 1) '0'
  let (a, a_upper) := char_to_base_36 a_port.value
  let (b, b_upper) := char_to_base_36 b_port.value
  let out := base_36_to_char (min (a * b) 255) (a_upper || b_upper)
  let out_port := Port.new "out" (row + 1) col out
  [Update.Inputs [a_port, b_port], Update.Outputs [out_port]]

def read (context : Context) (row col : Int) : List Update :=
  let x_port := context.listen "x" row (col - 2) '0'
  let y_port := context.listen "y" row (col - 1) '0'
  let (x, _) := char_to_base_36 x_port.value
  let (y, _) := char_to_base_36 y_port.value
  let val_port := context.listen "val" (row + Int.ofNat y)
    (col + 1 + Int.ofNat x) '\x00'
  let out := val_port.value
  let out_port := Port.new "out" (row + 1) col out
  [Update.Inputs [x_port, y_port, val_port], Update.Outputs [out_port]]

def push (context : Context) (row col : Int) : List Update :=
  let key_port := context.listen "key" row (col - 2) '0'
  let len_port := context.listen "len" row (col - 1) '1'
  let (key, _) := char_to_base_36 key_port.value
  let (len, _) := char_to_base_36 len_port.value
  let len := max len 1
  let val_port := context.listen "val" row (col + 1) '\x00'
  let out := val_port.value
  let out_port := Port.new "out" (row + 1) (col + Int.ofNat (key % len)) out
  let locks := (List.range len).map fun i =>
    Port.new "locked" (row + 1) (col + Int.ofNat i) '\x00'
  [Update.Inputs [key_port, len_port, val_port], Update.Outputs [out_port],
   Update.Locks locks]

def query (context : Context) (row col : Int) : List Update :=
  let x_port := context.listen "x" row (col - 3) '0'
  let y_port := context.listen "y" row (col - 2) '0'
  let len_port := context.listen "len" row (col - 1) '1'
  let (x, _) := char_to_base_36 x_port.value
  let (y, _) := char_to_base_36 y_port.value
  let (len, _) := char_to_base_36 len_port.value
  let len := max len 1
  let input_ports := (List.range len).map fun i =>
    context.listen ("in-" ++ toString i) (row + Int.ofNat y)
      (col + 1 + Int.ofNat x + Int.ofNat i) '\x00'
  let output_ports := input_ports.enum.map fun p =>
    Port.new ("out-" ++ toString p.1) (row + 1)
      (col + 1 + Int.ofNat p.1 - Int.ofNat len) p.2.value
  -- the source extends the input list with x and y but never the len port
  [Update.Inputs (input_ports ++ [x_port, y_port]),
   Update.Outputs output_ports]

def generate (context : Context) (row col : Int) : List Update :=
  let len_port := context.listen "len" row (col - 1) '1'
  let y_port := context.listen "y" row (col - 2) '0'
  let x_port := context.listen "x" row (col - 3) '0'
  let (x, _) := char_to_base_36 x_port.value
  let (y, _) := char_to_base_36 y_port.value
  let (len, _) := char_to_base_36 len_port.value
  let len := max len 1
  let input_ports := (List.range len).map fun i =>
    context.listen ("in-" ++ toString i) row (col + 1 + Int.ofNat i) '\x00'
  let output_ports := input_ports.enum.map fun p =>
    Port.new ("out-" ++ toString p.1) (row + 1 + Int.ofNat y)
      (col + Int.ofNat p.1 + Int.ofNat x) p.2.value
  [Update.Inputs (input_ports ++ [x_port, y_port]),
   Update.Outputs output_ports]

def write (context : Context) (row col : Int) : List Update :=
  let x_port := context.listen "x" row (col - 2) '0'
  let y_port := context.listen "y" row (col - 1) '0'
  let (x, _) := char_to_base_36 x_port.value
  let (y, _) := char_to_base_36 y_port.value
  let val_port := context.listen "val" row (col + 1) '\x00'
  let out := val_port.value
  let out_port := Port.new "out" (row + 1 + Int.ofNat y) (col + Int.ofNat x) out
  [Update.Inputs [x_port, y_port, val_port], Update.Outputs [out_port]]

def interpolate (context : Context) (row col : Int) : List Update :=
  let rate_port := context.listen "rate" row (col - 1) '1'
  let target_port := context.listen "target" row (col + 1) 'z'
  let (rate, _) := char_to_base_36 rate_port.value
  let (target, target_upper) := char_to_base_36 target_port.value
  let out_port := context.listen "out" (row + 1) col '0'
  let (out, _) := char_to_base_36 out_port.value
  let out := min (out + rate) target
  let out_port := { out_port with value := base_36_to_char out target_upper }
  [Update.Inputs [rate_port, target_port], Update.Outputs [out_port]]

/-- `euclid`: the source's `max` local is renamed `emax`. -/
def euclid (context : Context) (row col : Int) : List Update :=
  let step_port := context.listen "density" row (col - 1) '1'
  let max_port := context.listen "length" row (col + 1) '8'
  let offset_port := context.listen "rotation" row (col + 2) '0'
  let (step, _) := char_to_base_36 step_port.value
  let (emax, _) := char_to_base_36 max_port.value
  let (offset, _) := char_to_base_36 offset_port.value
  let emax := max emax 1
  let out_port := context.listen "out" (row + 1) col '\x00'
  let out_port := if (step * (context.ticks + offset)) % emax < step
    then { out_port with value := '*' } else out_port
  [Update.Inputs [step_port, max_port, offset_port],
   Update.Outputs [out_port]]

/-- The integers `lo, lo+1, ..., hi-1` (empty when `hi ≤ lo`). -/
def intRange (lo hi : Int) : List Int :=
  (List.range (hi - lo).toNat).map fun k => lo + Int.ofNat k

/-- The final value of `c` in the scan loop of `comment`
(src/operators.rs lines 1452-1458): the first `'#'` at or right of
`col + 1`; if none, the last scanned column `width - 1`; if the scan range
is empty, the initial `col + 1`. -/
def commentEnd (context : Context) (row : Int) (start width : Int) : Int :=
  match (intRange start width).find? (fun i => context.read row i == '#') with
  | some i => i
  | none => if start < width then width - 1 else start

def comment (context : Context) (row col : Int) : List Update :=
  let width := Int.ofNat context.cols
  let c := commentEnd context row (col + 1) width
  let locks := (intRange col (c + 1)).map fun l =>
    Port.new "locked" row l '\x00'
  [Update.Locks locks]

/-- The `variable` operator evaluate (src/operators.rs lines 1465-1482);
the source function is named `variable`, a Lean keyword. -/
def variableOp (context : Context) (row col : Int) : List Update :=
  let write_port := context.listen "write" row (col - 1) '.'
  let read_port := context.listen "read" row (col + 1) '.'
  if write_port.value = '.' then
    let out_port := Port.new "out" (row + 1) col
      (context.read_variable read_port.value)
    [Update.Inputs [write_port, read_port], Update.Outputs [out_port]]
  else
    let value := read_port.value
    [Update.Inputs [read_port],
     Update.Variables [(write_port.value, value)]]

/-- `bernoulli`: the `Bernoulli::new(p/10).sample(..)` draw is modelled as
`draw % 10 < probability` on the `rng` oracle (every outcome of the real
sampler is reachable).  `Bernoulli::new` panics for probability operands
above 10 (a probability above 1); panicked ticks are outside the model.
The source function is named `bernoulli`, taken in Lean by the Bernoulli
numbers. -/
def bernoulliOp (n : Nat) (context : Context) (row col : Int) : List Update :=
  let propability_port := context.listen "num" row (col + 1) '2'
  let (probability, _) := char_to_base_36 propability_port.value
  let out_port_zero := context.listen "out" (row + 1) col '\x00'
  let out_port_one := context.listen "out2" (row + 2) col '\x00'
  let c := context.rng n % 10 < probability
  let (out_port_zero, out_port_one) :=
    if context.read (row - 1) col = '*' ∨ context.read row (col - 1) = '*' ∨
        context.read (row + 1) col = '*' then
      let out_port_one := if c ∧ out_port_zero.value = '\x00'
        then { out_port_one with value := '*' } else out_port_one
      let out_port_zero := if out_port_one.value = '\x00'
        then { out_port_zero with value := '*' } else out_port_zero
      (out_port_zero, out_port_one)
    else (out_port_zero, out_port_one)
  [Update.Inputs [propability_port],
   Update.Outputs [out_port_zero, out_port_one]]

def concat (context : Context) (row col : Int) : List Update :=
  let len_port := context.listen "len" row (col - 1) '1'
  let (len, _) := char_to_base_36 len_port.value
  let output_ports := (List.range len).map fun i =>
    Port.new ("out-" ++ toString i) (row + 1) (col + Int.ofNat i + 1)
      (context.read_variable (context.read row (col + Int.ofNat i + 1)))
  let locks := (List.range len).map fun i =>
    Port.new "locked" row (col + 1 + Int.ofNat i) '\x00'
  [Update.Inputs [len_port], Update.Outputs output_ports,
   Update.Locks locks]

/-- `saver`: the name is the eight listened characters filtered to
alphanumerics (`char::is_alphanumeric`; `Char.isAlphanum` agrees on the
ASCII grid characters), saved under the trimmed name on bang and under
`"buffer"` otherwise. -/
def saver (context : Context) (row col : Int) : List Update :=
  let key_port_one := context.listen "ch1" row (col + 1) '.'
  let key_port_two := context.listen "ch2" row (col + 2) '.'
  let key_port_three := context.listen "ch3" row (col + 3) '.'
  let key_port_four := context.listen "ch4" row (col + 4) '.'
  let key_port_five := context.listen "ch5" row (col + 5) '.'
  let key_port_six := context.listen "ch6" row (col + 6) '.'
  let key_port_seven := context.listen "ch7" row (col + 7) '.'
  let key_port_eight := context.listen "ch8" row (col + 8) '.'
  let name := [key_port_one.value, key_port_two.value, key_port_three.value,
    key_port_four.value, key_port_five.value, key_port_six.value,
    key_port_seven.value, key_port_eight.value]
  let name := String.mk (name.filter fun a => a.isAlphanum)
  let locks := (List.range 8).map fun i =>
    Port.new "locked" row (col + 1 + Int.ofNat i) '\x00'
  let output :=
    if context.read (row - 1) col = '*' ∨ context.read row (col - 1) = '*' ∨
        context.read (row + 1) col = '*' then name
    else "buffer"
  [Update.Inputs [key_port_one, key_port_two, key_port_three, key_port_four,
     key_port_five, key_port_six, key_port_seven, key_port_eight],
   Update.Locks locks, Update.Save (trimDots output)]

/-- `snippet_saver` returns only its inputs and locks; on bang the source
additionally copies the clipboard into a snippet file — I/O entirely
outside the grid/note state, performed imperatively and not reflected in
the returned updates in the source either. -/
def snippet_saver (context : Context) (row col : Int) : List Update :=
  let key_port_one := context.listen "ch1" row (col + 1) '.'
  let key_port_two := context.listen "ch2" row (col + 2) '.'
  let key_port_three := context.listen "ch3" row (col + 3) '.'
  let key_port_four := context.listen "ch4" row (col + 4) '.'
  let key_port_five := context.listen "ch5" row (col + 5) '.'
  let key_port_six := context.listen "ch6" row (col + 6) '.'
  let key_port_seven := context.listen "ch7" row (col + 7) '.'
  let key_port_eight := context.listen "ch8" row (col + 8) '.'
  let locks := (List.range 8).map fun i =>
    Port.new "locked" row (col + 1 + Int.ofNat i) '\x00'
  [Update.Inputs [key_port_one, key_port_two, key_port_three, key_port_four,
     key_port_five, key_port_six, key_port_seven, key_port_eight],
   Update.Locks locks]

def loader (context : Context) (row col : Int) : List Update :=
  let key_port_one := context.listen "ch1" row (col + 1) '.'
  let key_port_two := context.listen "ch2" row (col + 2) '.'
  let key_port_three := context.listen "ch3" row (col + 3) '.'
  let key_port_four := context.listen "ch4" row (col + 4) '.'
  let key_port_five := context.listen "ch5" row (col + 5) '.'
  let key_port_six := context.listen "ch6" row (col + 6) '.'
  let key_port_seven := context.listen "ch7" row (col + 7) '.'
  let key_port_eight := context.listen "ch8" row (col + 8) '.'
  let name := [key_port_one.value, key_port_two.value, key_port_three.value,
    key_port_four.value, key_port_five.value, key_port_six.value,
    key_port_seven.value, key_port_eight.value]
  let locks := (List.range 8).map fun i =>
    Port.new "locked" row (col + 1 + Int.ofNat i) '\x00'
  let output :=
    if context.read (row - 1) col = '*' ∨ context.read row (col - 1) = '*' ∨
        context.read (row + 1) col = '*' then trimDots (String.mk name)
    else "buffer"
  [Update.Inputs [key_port_one, key_port_two, key_port_three, key_port_four,
     key_port_five, key_port_six, key_port_seven, key_port_eight],
   Update.Locks locks, Update.Load output]

/-- `snippet_loader` returns only its inputs and locks; on bang the source
additionally copies a snippet file to the clipboard (outside the modelled
state). -/
def snippet_loader (context : Context) (row col : Int) : List Update :=
  let key_port_one := context.listen "ch1" row (col + 1) '.'
  let key_port_two := context.listen "ch2" row (col + 2) '.'
  let key_port_three := context.listen "ch3" row (col + 3) '.'
  let key_port_four := context.listen "ch4" row (col + 4) '.'
  let key_port_five := context.listen "ch5" row (col + 5) '.'
  let key_port_six := context.listen "ch6" row (col + 6) '.'
  let key_port_seven := context.listen "ch7" row (col + 7) '.'
  let key_port_eight := context.listen "ch8" row (col + 8) '.'
  let locks := (List.range 8).map fun i =>
    Port.new "locked" row (col + 1 + Int.ofNat i) '\x00'
  [Update.Inputs [key_port_one, key_port_two, key_port_three, key_port_four,
     key_port_five, key_port_six, key_port_seven, key_port_eight],
   Update.Locks locks]

/-! ## The operator registry

`tick_operators` below is `get_tick_operators(read_operator_config(..))`
evaluated at the built-in default configuration (the configuration file is
external input; the claims evaluate the default map).  Two quirks of the
default configuration are preserved: it contains no `A Add` line, so the
`Add` operator is filtered out of the map entirely, and its `Â± Turing`
line binds a name that matches no operator. -/

/-- `Operator::new`. -/
def Operator.new (name : String)
    (evaluate : Nat → Context → Int → Int → List Update)
    (input_ports output_ports : List String) : Operator :=
  ⟨name, evaluate, input_ports, output_ports⟩

def tick_operators : Char → Option Operator := fun symbol =>
  match symbol with
  | 'B' => some (Operator.new "Sub" (fun _ => sub)
      ["Input A", "Input B"] ["A-B"])
  | 'C' => some (Operator.new "Clock" (fun _ => clock)
      ["Input A", "Input B"] ["Output"])
  | 'D' => some (Operator.new "Delay" (fun _ => delay)
      ["Input A", "Input B"] ["Output"])
  | 'E' => some (Operator.new "East" (fun _ => east)
      ["Input A", "Input B"] ["Output", "Output"])
  | 'F' => some (Operator.new "If" (fun _ => condition)
      ["Input A", "Input B"] ["A==B"])
  | 'G' => some (Operator.new "Generate" (fun _ => generate)
      ["Offset Y", "Offset X", "Port 0", "Port 1", "Port 2", "Port 3",
       "Port 4", "Port 5", "Port 6", "Port 7", "Port 8", "Port 9",
       "Port a", "Port b", "Port c", "Port d", "Port e", "Port f",
       "Port g", "Port h"]
      ["Output 0", "Output 1", "Output 2", "Output 3", "Output 4",
       "Output 5", "Output 6", "Output 7", "Output 8", "Output 9",
       "Output a", "Output b", "Output c", "Output d", "Output e",
       "Output f", "Output g", "Output h"])
  | 'H' => some (Operator.new "Halt" (fun _ => halt)
      ["Input A"] ["Output"])
  | 'I' => some (Operator.new "Increment" (fun _ => increment)
      ["Min", "Max"] ["Output"])
  | 'J' => some (Operator.new "Jump" (fun _ => jump)
      ["Input A", "Input B"] ["Output"])
  | 'K' => some (Operator.new "Concat" (fun _ => concat)
      ["Input A", "Input B", "Input C", "Input D"]
      (List.replicate 13 "Output"))
  | 'L' => some (Operator.new "Lesser" (fun _ => lesser)
      ["Input A", "Input B"] ["<"])
  | 'M' => some (Operator.new "Multiply" (fun _ => multiply)
      ["Input A", "Input B"] ["A*B"])
  | 'N' => some (Operator.new "North" (fun _ => north)
      ["Input A", "Input B"] ["Output", "Output"])
  | 'O' => some (Operator.new "Read" (fun _ => read)
      ["Offset X", "Offset Y", "Input"] ["Output"])
  | 'P' => some (Operator.new "Push" (fun _ => push)
      ["Step", "Steps", "Value"] (List.replicate 23 "Output"))
  | 'Q' => some (Operator.new "Query" (fun _ => query)
      ["Input A", "Input B", "Input C", "Input D", "Input E", "Input F",
       "Input G", "Input H", "Input I", "Input J", "Input K", "Input L",
       "Input M", "Input N", "Input O", "Input P", "Input Q", "Input R",
       "Input S", "Input T", "Input U", "Input V", "Input W", "Input X",
       "Input Y", "Input Z", "Input 0", "Input 1", "Input 2", "Input 3",
       "Input 4", "Input 5", "Input 6", "Input 7", "Input 8", "Input 9",
       "Input 10"]
      (List.replicate 27 "Output"))
  | 'R' => some (Operator.new "Random" random ["Min", "Max"] ["Output"])
  | 'S' => some (Operator.new "South" (fun _ => south)
      ["Input A", "Input B"] ["Output", "Output"])
  -- the source's Track input list repeats "Input G" where "Input J"
  -- would be expected
  | 'T' => some (Operator.new "Track" (fun _ => track)
      ["Step", "Steps", "Input 0", "Input 1", "Input 2", "Input 3",
       "Input 4", "Input 5", "Input 6", "Input 7", "Input 8", "Input 9",
       "Input A", "Input B", "Input C", "Input D", "Input E", "Input F",
       "Input G", "Input H", "Input I", "Input G", "Input K", "Input L",
       "Input M", "Input N", "Input O", "Input P", "Input Q", "Input R",
       "Input S", "Input T", "Input U", "Input V", "Input W", "Input X",
       "Input Y", "Input Z"]
      ["Output Step"])
  | 'U' => some (Operator.new "Euclid" (fun _ => euclid)
      ["Density", "Length", "Rotation"] ["Output"])
  | 'V' => some (Operator.new "Variable" (fun _ => variableOp)
      ["Input A", "Input B"] ["Output"])
  | 'W' => some (Operator.new "West" (fun _ => west)
      ["Input A", "Input B"] ["Output", "Output"])
  | 'X' => some (Operator.new "Write" (fun _ => write)
      ["Input A", "Input B", "Input C"] ["Output"])
  | 'Y' => some (Operator.new "Jymp" (fun _ => jymp)
      ["Input A", "Input B"] ["Output"])
  | 'Z' => some (Operator.new "Interpolate" (fun _ => interpolate)
      ["Input A", "Input B"] ["Output"])
  | '#' => some (Operator.new "Comment" (fun _ => comment)
      ["Input A", "Input B"] ["Output"])
  | '~' => some (Operator.new "Synth" (fun _ => synth)
      ["Engine", "Octave", "Degree", "Velocity", "Duration", "Reverb", "FM"]
      ["Output"])
  | ':' => some (Operator.new "Midi" (fun _ => midi_note)
      ["Channel", "Octave", "Base Note", "Velocity", "Duration"] ["Output"])
  | '?' => some (Operator.new "MidiCC" (fun _ => midi_cc)
      ["Channel", "Program", "Value"] ["Output"])
  | ';' => some (Operator.new "Scaler" (fun _ => scaler)
      ["Channel", "Octave", "Degree", "Velocity", "Duration"] ["Output"])
  | '>' => some (Operator.new "Sampler" (fun _ => sampler)
      ["Slot", "Sample", "Velocity", "Duration", "Reverb", "Speed"]
      ["Output"])
  | '^' => some (Operator.new "Bernoulli" bernoulliOp
      ["Probability"] ["Output A", "Output B"])
  | '@' => some (Operator.new "Globals" (fun _ => global)
      ["Global Key", "Global Scale"] ["Output"])
  | '[' => some (Operator.new "Saver" (fun _ => saver)
      (List.replicate 8 "char") [""])
  | ']' => some (Operator.new "Loader" (fun _ => loader)
      (List.replicate 8 "char") [""])
  | '{' => some (Operator.new "SnipSave" (fun _ => snippet_saver)
      (List.replicate 8 "char") [""])
  | '}' => some (Operator.new "SnipLoad" (fun _ => snippet_loader)
      (List.replicate 8 "char") [""])
  | _ => none

/-- `get_bang_operators`: every tick operator re-keyed at
`to_ascii_lowercase` of its symbol.  The tick keys are uppercase letters
and case-less symbols, so the bang keys are the lowercase letters and the
same symbols, with no collisions (the hash-map insertion order is
irrelevant); looking up a non-uppercase character at its ASCII uppercase
realises exactly that map. -/
def bang_operators : Char → Option Operator := fun symbol =>
  if 'A' ≤ symbol ∧ symbol ≤ 'Z' then none
  else tick_operators symbol.toUpper

/-! ## Concrete contexts for the scenario claims -/

/-- A context exactly as `Context::new` builds it from a fresh grid (empty
buffers, lock set, variable map and port map; `ticks = 0`; default
globals), with the oracles fixed to concrete values and the specification
log empty. -/
def mkTestContext (grid : Grid) (rows cols : Nat) (ticks : Nat)
    (tick_time : Nat) : Context :=
  { grid := grid, notes := [], locks := [], vars := [], ticks := ticks,
    tempo := 120, divisions := 4, tick_time := tick_time, ports := [],
    rows := rows, cols := cols, global_scale := '0', global_key := 'C',
    fs := fun _ => [], rng := fun _ => 0, log := [], evals := 0 }

/-- The scenario-S5 grid: row 3 holds `*:03C4f` in columns 0..6, all other
cells empty. -/
def c7ctx : Context :=
  mkTestContext
    [List.replicate 7 '.', List.replicate 7 '.', List.replicate 7 '.',
     ['*', ':', '0', '3', 'C', '4', 'f']] 4 7 0 125

set_option maxRecDepth 100000 in
/-- C7 counterexample: one tick on the scenario-S5 grid leaves the note
buffer *empty* — not one note.  The pre-placed `'*'` at (3,0) is treated
as a stale bang and cleared before the operator passes, so the MIDI
operator at (3,1) never sees an adjacent bang.  (The claim's operand
reading is also off: column 5 holds the velocity `'4'` and column 6 the
duration `'f'`, not the other way round.) -/
theorem midi_scenario_counterexample :
    (grid_tick tick_operators bang_operators c7ctx).notes = [] ∧
      (grid_tick tick_operators bang_operators c7ctx).notes.length ≠ 1 :=
  ⟨by decide, by decide⟩

set_option maxRecDepth 100000 in
/-- C7 (amended): after one tick on the scenario-S5 grid, the pre-placed
bang has been cleared (cell (3,0) reads `'.'`) and the note buffer is
empty; a `'*'` must be written during the tick itself (e.g. by an
operator) for the MIDI operator to emit. -/
theorem midi_scenario_amended :
    (grid_tick tick_operators bang_operators c7ctx).read 3 0 = '.' ∧
      (grid_tick tick_operators bang_operators c7ctx).notes = [] :=
  ⟨by decide, by decide⟩

/-- A 2×1 grid holding a Delay operator, used to witness the C1 theorem:
on tick 0 the Delay fires and writes a fresh `'*'` below itself. -/
def c1ctx : Context := mkTestContext [['D'], ['.']] 2 1 0 125

set_option maxRecDepth 100000 in
/-- Witness for the C1 theorem at a concrete context: the fresh `'*'`
written by the Delay operator at (1,0) is indeed recorded in the tick's
write log. -/
theorem grid_tick_no_stale_bangs_witness :
    c1ctx.grid.length = c1ctx.rows ∧
      (∀ row ∈ c1ctx.grid, row.length = c1ctx.cols) ∧ c1ctx.log = [] ∧
      (grid_tick tick_operators bang_operators c1ctx).read 1 0 = '*' ∧
      (1, 0, '*') ∈ (grid_tick tick_operators bang_operators c1ctx).log :=
  ⟨rfl, by decide, rfl, by decide,
    grid_tick_no_stale_bangs tick_operators bang_operators c1ctx rfl
      (by decide) rfl 1 0 (by decide)⟩

/-! ## Operator-level claim theorems -/

/-- The ports of all `Outputs` updates in a returned update list. -/
def outputPorts (updates : List Update) : List Port :=
  updates.foldr
    (fun u acc => match u with
      | Update.Outputs ps => ps ++ acc
      | _ => acc) []

/-- The notes of all `Notes` updates in a returned update list. -/
def notesOf (updates : List Update) : List Note :=
  updates.foldr
    (fun u acc => match u with
      | Update.Notes ns => ns ++ acc
      | _ => acc) []

/-- A 2×3 grid with a Delay at (0,1) whose south cell holds `'x'`. -/
def c5ctx : Context := mkTestContext [['1', 'D', '2'], ['.', 'x', '.']] 2 3 1 125

/-- C5 counterexample: at tick 1 with `rate = 1`, `mod = 2` the Delay does
not fire, and the value it writes to the south cell is the cell's prior
content `'x'` — not `'.'` as the claim states for arbitrary prior
content. -/
theorem delay_counterexample :
    outputPorts (delay c5ctx 0 1) = [Port.new "out" 1 1 'x'] ∧
      ('x' : Char) ≠ '.' :=
  ⟨by decide, by decide⟩

/-- C5 (amended): the Delay operator's single output port is the south
cell `(row+1, col)`; it carries `'*'` exactly when
`ticks % (rate * mod) = 0` and otherwise carries the south cell's
listened value (its prior content, with `'.'` for an empty cell). -/
theorem delay_south_output (ctx : Context) (row col : Int) :
    outputPorts (delay ctx row col) =
      [Port.new "out" (row + 1) col
        (if ctx.ticks %
            (max (char_to_base_36 (ctx.listen "rate" row (col - 1) '1').value).1 1 *
              max (char_to_base_36 (ctx.listen "mod" row (col + 1) '8').value).1 1) = 0
          then '*'
          else (ctx.listen "out" (row + 1) col '.').value)] := by
  unfold delay
  rcases hr : char_to_base_36 (ctx.listen "rate" row (col - 1) '1').value with
    ⟨rate, rup⟩
  rcases hm : char_to_base_36 (ctx.listen "mod" row (col + 1) '8').value with
    ⟨dmod, mup⟩
  simp only [hr, hm]
  by_cases h : ctx.ticks % (max rate 1 * max dmod 1) = 0
  · rw [if_pos h, if_pos h]
    simp [outputPorts, Port.new, Context.listen]
  · rw [if_neg h, if_neg h]
    simp [outputPorts, Port.new, Context.listen]

/-- Modelled from the claim's wording, for comparison with the source's
`prepare_note`: "the note_offset added to the pitch is taken from the
SHARP_NOTES table when upper is true and from the NATURAL_NOTES table when
upper is false"; everything else as in the source. -/
def prepare_note_claimed (octave : Nat) (note_upper : Bool)
    (degree scale octave_offset : Nat) (note_index : Nat) : Nat :=
  let note_offset := if note_upper then SHARP_NOTES.getD note_index 0
    else NATURAL_NOTES.getD note_index 0
  let octave := octave + octave_offset
  let selected_scale := SCALES.getD (scale % 26) []
  let scale_offset :=
    (if degree ≤ 6 then 0
     else if degree ≤ 13 then 12
     else if degree ≤ 20 then 24
     else if degree ≤ 27 then 36
     else if degree ≤ 34 then 48
     else 60) + selected_scale.getD (degree % 7) 0
  (scale_offset + 12 * octave + note_offset) % 256

/-- C4 counterexample: with `upper = true` and `note_index = 0` the source
adds `NATURAL_NOTES[0] = 9`, while the claimed convention would add
`SHARP_NOTES[0] = 10`. -/
theorem prepare_note_counterexample :
    prepare_note 0 true 0 0 0 0 = 9 ∧ prepare_note_claimed 0 true 0 0 0 0 = 10 ∧
      prepare_note 0 true 0 0 0 0 ≠ prepare_note_claimed 0 true 0 0 0 0 :=
  ⟨by decide, by decide, by decide⟩

/-- C4 (amended): the note offset comes from NATURAL_NOTES when the key is
uppercase and from SHARP_NOTES when it is lowercase — the opposite of the
claimed assignment. -/
theorem prepare_note_offset_tables (octave : Nat) (note_upper : Bool)
    (degree scale octave_offset note_index : Nat) :
    prepare_note octave note_upper degree scale octave_offset note_index =
      ((if degree ≤ 6 then 0
        else if degree ≤ 13 then 12
        else if degree ≤ 20 then 24
        else if degree ≤ 27 then 36
        else if degree ≤ 34 then 48
        else 60) + (SCALES.getD (scale % 26) []).getD (degree % 7) 0 +
        12 * (octave + octave_offset) +
        (if note_upper then NATURAL_NOTES.getD note_index 0
         else SHARP_NOTES.getD note_index 0)) % 256 := by
  cases note_upper <;> rfl

/-! ## `Context::new` and the tick time (C6) -/

/-- `Context::new` (src/context.rs lines 68-128): the grid comes from the
session file when it opens (abstracted as an optional pre-loaded grid) and
is a fresh `rows × cols` grid of `'.'` otherwise;
`tick_time = 60000 / (tempo * divisions)` by integer `u64` division (which
panics when `tempo * divisions = 0`; such constructions are outside the
model).  The model-only oracle and log fields take inert defaults. -/
def Context.new (tempo divisions : Nat) (rows cols : Nat)
    (session : Option Grid) : Context :=
  let grid := match session with
    | some g => g
    | none => List.replicate rows (List.replicate cols '.')
  { grid := grid, notes := [], locks := [], vars := [], ticks := 0,
    tempo := tempo, divisions := divisions,
    tick_time := 60000 / (tempo * divisions),
    ports := [], rows := rows, cols := cols, global_scale := '0',
    global_key := 'C', fs := fun _ => [], rng := fun _ => 0, log := [],
    evals := 0 }

/-- C6 counterexample: with `tempo = 7`, `divisions = 1` the product
`tick_time * tempo * divisions` is `8571 * 7 = 59997`, not `60000`. -/
theorem tick_time_product_counterexample :
    (Context.new 7 1 1 1 none).tick_time * 7 * 1 = 59997 ∧
      (59997 : Nat) ≠ 60000 :=
  ⟨by decide, by decide⟩

/-- C6 (amended): `tick_time` is `60000 / (tempo × divisions)` rounded
down, so the product is at most 60000, within one `tempo × divisions` of
it, and equals 60000 exactly when `tempo × divisions` divides 60000. -/
theorem tick_time_floor (tempo divisions rows cols : Nat)
    (session : Option Grid) (h : 0 < tempo * divisions) :
    (Context.new tempo divisions rows cols session).tick_time *
        (tempo * divisions) ≤ 60000 ∧
      60000 < ((Context.new tempo divisions rows cols session).tick_time + 1) *
        (tempo * divisions) ∧
      (tempo * divisions ∣ 60000 →
        (Context.new tempo divisions rows cols session).tick_time * tempo *
          divisions = 60000) := by
  have ht : (Context.new tempo divisions rows cols session).tick_time =
      60000 / (tempo * divisions) := rfl
  rw [ht]
  refine ⟨Nat.div_mul_le_self _ _, ?_, ?_⟩
  · exact (Nat.div_lt_iff_lt_mul h).mp (Nat.lt_succ_self _)
  · intro hdvd
    rw [Nat.mul_assoc]
    exact Nat.div_mul_cancel hdvd

/-- Witness for the amended C6 theorem at `tempo = 120`,
`divisions = 4`: `tick_time = 125` and the product is exactly 60000. -/
theorem tick_time_floor_witness :
    0 < 120 * 4 ∧
      ((Context.new 120 4 1 1 none).tick_time * (120 * 4) ≤ 60000 ∧
        60000 < ((Context.new 120 4 1 1 none).tick_time + 1) * (120 * 4) ∧
        (120 * 4 ∣ 60000 →
          (Context.new 120 4 1 1 none).tick_time * 120 * 4 = 60000)) ∧
      (Context.new 120 4 1 1 none).tick_time * 120 * 4 = 60000 :=
  ⟨by decide, tick_time_floor 120 4 1 1 none (by decide),
    (tick_time_floor 120 4 1 1 none (by decide)).2.2 (by decide)⟩

/-! ## Out-of-bounds accesses (C9) -/

/-- Coordinates outside the stored grid: negative, past the last row, or
past the end of the addressed row. -/
def gridOutOfBounds (ctx : Context) (row col : Int) : Prop :=
  row < 0 ∨ col < 0 ∨ ctx.grid.length ≤ row.toNat ∨
    (ctx.grid.getD row.toNat []).length ≤ col.toNat

instance (ctx : Context) (row col : Int) : Decidable (gridOutOfBounds ctx row col) :=
  inferInstanceAs (Decidable (_ ∨ _ ∨ _ ∨ _))

/-- C9: every out-of-bounds read returns the nul character and every
out-of-bounds write leaves the grid unchanged. -/
theorem read_write_out_of_bounds (ctx : Context) (row col : Int) (ch : Char)
    (h : gridOutOfBounds ctx row col) :
    ctx.read row col = '\x00' ∧ (ctx.write row col ch).grid = ctx.grid := by
  constructor
  · by_contra hne
    obtain ⟨hr, hc, h1, h2⟩ := gridRead_ne_nul hne
    rcases h with h | h | h | h <;> omega
  · unfold Context.write
    by_cases h1 : row < 0 ∨ col < 0
    · rw [if_pos h1]
    · rw [if_neg h1]
      by_cases h2 : row.toNat < ctx.grid.length ∧
          col.toNat < (ctx.grid.getD row.toNat []).length
      · exfalso
        push_neg at h1
        rcases h with h | h | h | h <;> omega
      · rw [if_neg h2]

/-- A 1×1 context for the C9 witness. -/
def c9ctx : Context := mkTestContext [['a']] 1 1 0 125

/-- Witness for the C9 theorem at the out-of-bounds coordinate (5,0). -/
theorem read_write_out_of_bounds_witness :
    gridOutOfBounds c9ctx 5 0 ∧
      (c9ctx.read 5 0 = '\x00' ∧ (c9ctx.write 5 0 'x').grid = c9ctx.grid) :=
  ⟨by decide, read_write_out_of_bounds c9ctx 5 0 'x' (by decide)⟩

/-! ## The MIDI operator's base-note guard (C10) -/

/-- A 2×6 grid: `:03.4f` in row 0 with a bang below the `:`; the base-note
operand cell (0,3) is empty. -/
def c10ctx : Context :=
  mkTestContext [[':', '0', '3', '.', '4', 'f'],
                 ['*', '.', '.', '.', '.', '.']] 2 6 0 125

/-- C10 counterexample: with the base-note cell `'.'` and a bang adjacent,
the MIDI operator *does* emit a note — the `'.'` is replaced by the
listen default `'C'`, which decodes to 12 ≥ 10.  The claim's inclusion of
`'.'` among the silent operands is wrong. -/
theorem midi_dot_note_counterexample :
    c10ctx.read 0 3 = '.' ∧ (notesOf (midi_note c10ctx 0 0)).length = 1 :=
  ⟨by decide, by decide⟩

/-- C10 (amended): when the base-note cell is not `'.'` and its character
decodes below 10 (digits and other non-letters), the MIDI operator emits
no note, bang or no bang.  (A `'.'` base-note cell instead takes the
default `'C'` and does emit on bang.) -/
theorem midi_note_below_10_no_note (ctx : Context) (row col : Int)
    (h1 : ctx.read row (col + 3) ≠ '.')
    (h2 : (char_to_base_36 (ctx.read row (col + 3))).1 < 10) :
    notesOf (midi_note ctx row col) = [] := by
  have hv : (ctx.listen "note" row (col + 3) 'C').value =
      ctx.read row (col + 3) := by
    simp [Context.listen, Port.new, if_neg h1]
  unfold midi_note
  rcases hcb : char_to_base_36 (ctx.listen "note" row (col + 3) 'C').value with
    ⟨note, nu⟩
  rw [hv] at hcb
  rw [hcb] at h2
  simp only [hcb, hv]
  rw [if_neg]
  · rfl
  · intro hcon
    exact absurd hcon.1 (by omega)

/-- The C10 witness grid: base-note cell `'5'` (decodes to 5 < 10) and a
bang below the `:`. -/
def c10wctx : Context :=
  mkTestContext [[':', '0', '3', '5', '4', 'f'],
                 ['*', '.', '.', '.', '.', '.']] 2 6 0 125

/-- Witness for the amended C10 theorem: a digit base-note operand emits
nothing even with a bang adjacent. -/
theorem midi_note_below_10_no_note_witness :
    c10wctx.read 0 3 ≠ '.' ∧ (char_to_base_36 (c10wctx.read 0 3)).1 < 10 ∧
      notesOf (midi_note c10wctx 0 0) = [] :=
  ⟨by decide, by decide,
    midi_note_below_10_no_note c10wctx 0 0 (by decide) (by decide)⟩
